import Mathlib

/-!
# Verification of the logistics-dashboard aggregation engine

Shallow embedding of the data-processing core of the two dashboard variants
found in the repository (the reworked `Dashboard` component, called "v1"
below, and the earlier variant appended after it in the same file, called
"v2").  Chart rendering, React state and CSV fetching are presentation
plumbing and are out of scope; the embedded functions are the pure
record-batch transformations (`getWeekNumber`, `processProductData`,
`processSalesData`, `processPurchaseData`, `processClockData`,
`calculateMetrics` and the corresponding inline blocks of the v2
`calculateMetrics`).

Modelling conventions:
* JavaScript numbers are modelled as `ℚ`; non-finite results (`NaN`,
  `Infinity`) are collapsed to `Option.none` where they can arise.
* Timestamps are modelled at day granularity (days since the Unix epoch,
  as `Int`); the model ignores time zones (UTC throughout), which is
  sound for the date-only values this code handles.
* Library calls (`date-fns` `parseISO`/`getISOWeek`/`getYear`, the JS
  `Date` constructor, `parseInt`, `parseFloat`, `String.prototype.split`,
  `Array.prototype.sort`) are embedded with their documented semantics,
  restricted to the value shapes reachable in this program (digit /
  dash / slash date strings, decimal numerals); each definition's
  comment states the restriction.
-/

/- The Batteries rational primitives are marked irreducible, which
blocks `decide`/`rfl` evaluation of concrete pipeline runs; re-allow
unfolding them locally (the kernel re-checks every proof regardless). -/
set_option allowUnsafeReducibility true
attribute [local semireducible] Rat.mul Rat.add Rat.sub Rat.div Rat.inv Rat.neg

/-! ## Basic character/digit helpers -/

def digitsToNat (cs : List Char) : Nat :=
  cs.foldl (fun a c => 10 * a + (c.toNat - 48)) 0

/-- JS `String.prototype.split` with a character-class separator:
splitting keeps empty pieces (`"a-"` ↦ `["a", ""]`, `""` ↦ `[""]`). -/
def splitChars (p : Char → Bool) : List Char → List (List Char)
  | [] => [[]]
  | c :: cs =>
    let r := splitChars p cs
    if p c then [] :: r
    else
      match r with
      | [] => [[c]]
      | h :: t => (c :: h) :: t

/-- `dateStr.split` on the dash-or-slash character class, from
`getWeekNumber` (v1). -/
def splitDashSlash (s : String) : List String :=
  (splitChars (fun c => c = '-' || c = '/') s.data).map (fun cs => String.mk cs)

/-! ## JS number coercions -/

/-- JS `ToNumber` on a string, modelled for the strings this program
splits date components into: the empty string coerces to `0`, a string
of decimal digits to its value, and anything else is treated as `NaN`
(`none`).  (The full `ToNumber` grammar — signs, fractions, exponents,
hex — is not reachable from the date components handled here.) -/
def jsToNumber (s : String) : Option Int :=
  if s.data.isEmpty then some 0
  else if s.data.all Char.isDigit then some (digitsToNat s.data : Int)
  else none

/-- Longest leading run of decimal digits, `none` when there is none —
the digit-consuming core of JS `parseInt`. -/
def takeDigits (cs : List Char) : Option Nat :=
  let ds := cs.takeWhile Char.isDigit
  if ds.isEmpty then none else some (digitsToNat ds)

/-- JS `parseInt(s, 10)`: skip leading spaces, optional sign, then the
longest digit prefix; `NaN` (`none`) when no digit is found. -/
def jsParseIntStr (s : String) : Option Int :=
  match s.data.dropWhile (fun c => c = ' ') with
  | [] => none
  | c :: rest =>
    if c = '-' then (takeDigits rest).map (fun n => -(n : Int))
    else if c = '+' then (takeDigits rest).map (fun n => (n : Int))
    else (takeDigits (c :: rest)).map (fun n => (n : Int))

/-- JS `parseFloat(s)`: optional sign, decimal digits with an optional
fraction part (exponent forms do not occur in this data). -/
def jsParseFloatStr (s : String) : Option ℚ :=
  let cs0 := s.data.dropWhile (fun c => c = ' ')
  let sgn : ℚ := match cs0 with
    | '-' :: _ => -1
    | _ => 1
  let cs := match cs0 with
    | '-' :: r => r
    | '+' :: r => r
    | _ => cs0
  let ip := cs.takeWhile Char.isDigit
  match cs.drop ip.length with
  | '.' :: r2 =>
    let fp := r2.takeWhile Char.isDigit
    if ip.isEmpty && fp.isEmpty then none
    else some (sgn * ((digitsToNat ip : ℚ) + (digitsToNat fp : ℚ) / ((10 : ℚ) ^ fp.length)))
  | _ => if ip.isEmpty then none else some (sgn * (digitsToNat ip : ℚ))

/-- Truncation toward zero, as JS `parseInt` applied to a number's
decimal rendering behaves for the magnitudes appearing here. -/
def jtrunc (q : ℚ) : Int := Int.tdiv q.num q.den

/-! ## Proleptic Gregorian calendar (civil ↔ epoch-day conversions) -/

def isLeap (y : Int) : Bool :=
  y.emod 4 = 0 && (y.emod 100 ≠ 0 || y.emod 400 = 0)

def daysInMonth (y m : Int) : Int :=
  if m = 2 then (if isLeap y then 29 else 28)
  else if m = 4 || m = 6 || m = 9 || m = 11 then 30
  else 31

/-- Days since 1970-01-01 of the civil date `(y, m, d)` (valid for any
`d` offset; months must be in 1..12). -/
def daysFromCivil (y m d : Int) : Int :=
  let y' := if m ≤ 2 then y - 1 else y
  let era := y'.fdiv 400
  let yoe := y' - era * 400
  let mp := (m + 9).emod 12
  let doy := (153 * mp + 2).fdiv 5 + d - 1
  let doe := yoe * 365 + yoe.fdiv 4 - yoe.fdiv 100 + doy
  era * 146097 + doe - 719468

/-- Civil date `(year, month, day)` of an epoch-day count. -/
def civilFromDays (z0 : Int) : Int × Int × Int :=
  let z := z0 + 719468
  let era := z.fdiv 146097
  let doe := z - era * 146097
  let yoe := (doe - doe.fdiv 1460 + doe.fdiv 36524 - doe.fdiv 146096).fdiv 365
  let y := yoe + era * 400
  let doy := doe - (365 * yoe + yoe.fdiv 4 - yoe.fdiv 100)
  let mp := (5 * doy + 2).fdiv 153
  let d := doy - (153 * mp + 2).fdiv 5 + 1
  let m := if mp < 10 then mp + 3 else mp - 9
  (if m ≤ 2 then y + 1 else y, m, d)

/-- JS `Date.prototype.getDay` (0 = Sunday … 6 = Saturday); day 0 of the
epoch was a Thursday. -/
def jsDay (t : Int) : Int := (t + 4).emod 7

/-- date-fns `getYear`: the calendar year of the date. -/
def getYearOf (t : Int) : Int := (civilFromDays t).1

/-- date-fns `startOfISOWeek`: the Monday on or before `t`. -/
def startOfISOWeek (t : Int) : Int := t - (jsDay t + 6).emod 7

/-- date-fns `getISOWeekYear`: compares `t` with the start of the ISO
week containing the fourth of January of the surrounding years. -/
def getISOWeekYear (t : Int) : Int :=
  let y := getYearOf t
  let startOfNextYear := startOfISOWeek (daysFromCivil (y + 1) 1 4)
  let startOfThisYear := startOfISOWeek (daysFromCivil y 1 4)
  if startOfNextYear ≤ t then y + 1
  else if startOfThisYear ≤ t then y
  else y - 1

/-- date-fns `startOfISOWeekYear`. -/
def startOfISOWeekYear (t : Int) : Int :=
  startOfISOWeek (daysFromCivil (getISOWeekYear t) 1 4)

/-- date-fns `getISOWeek`: whole weeks between the start of the ISO week
of `t` and the start of its ISO week-numbering year, plus one. -/
def getISOWeekOf (t : Int) : Int :=
  (startOfISOWeek t - startOfISOWeekYear t).fdiv 7 + 1

/-! ## JS scalar values and objects -/

/-- A loosely-typed scalar as delivered by the CSV layer
(`dynamicTyping: true`): a string, a number, or null/absent. -/
inductive JVal where
  | jstr (s : String)
  | jnum (q : ℚ)
  | jnull
deriving DecidableEq, Repr

/-- JS truthiness of the scalars above (`""`, `0` and `null` are falsy). -/
def truthy : JVal → Bool
  | .jstr s => !s.data.isEmpty
  | .jnum q => q ≠ 0
  | .jnull => false

/-- JS `a || b`. -/
def jsOr (a b : JVal) : JVal := if truthy a then a else b

/-- Property-key coercion of a scalar (object keys are strings).  Names
in this data are strings; integral numbers are rendered in decimal,
which is what matters for any stray auto-typed value. -/
def jkey : JVal → String
  | .jstr s => s
  | .jnum q => if q.den = 1 then toString q.num else toString q
  | .jnull => "null"

/-- JS `parseInt(v, 10)` on a scalar: strings are parsed by prefix;
numbers round toward zero (via their decimal rendering); null is `NaN`. -/
def jsParseInt : JVal → Option Int
  | .jstr s => jsParseIntStr s
  | .jnum q => some (jtrunc q)
  | .jnull => none

/-- JS `parseFloat(v)` on a scalar. -/
def jsParseFloat : JVal → Option ℚ
  | .jstr s => jsParseFloatStr s
  | .jnum q => some q
  | .jnull => none

/-- JS `ToNumber` on a scalar (`null` coerces to `0`). -/
def jvalNum : JVal → Option ℚ
  | .jstr s => if s.data.isEmpty then some 0
               else (jsParseFloatStr s).bind (fun q =>
                 if s.data.all (fun c => c.isDigit || c = '.' || c = '-' || c = '+' || c = ' ')
                 then some q else none)
  | .jnum q => some q
  | .jnull => some 0

/-- A JS object: an insertion-ordered string-keyed map. -/
abbrev Obj (a : Type) : Type := List (String × a)

def objGet {a : Type} (m : Obj a) (k : String) : Option a :=
  ((List.find? (fun p => p.1 = k) m)).map (fun p => p.2)

/-- JS property assignment: updates in place (keeping the key position)
or appends a new key. -/
def objSet {a : Type} (m : Obj a) (k : String) (v : a) : Obj a :=
  match m with
  | [] => [(k, v)]
  | (k', v') :: rest =>
    if k' = k then (k, v) :: rest else (k', v') :: objSet rest k v

def objKeys {a : Type} (m : Obj a) : List String := m.map (fun p => p.1)

/-- A raw CSV row: an ordered field-name → scalar mapping. -/
abbrev RawRecord : Type := Obj JVal

/-- Property access `record[name]` (absent fields read as undefined,
which this model folds into `jnull`: both are falsy and both make
`parseInt`/`parseFloat` return `NaN`). -/
def fld (r : RawRecord) (k : String) : JVal := (objGet r k).getD .jnull

/-! ## date-fns `parseISO` and the JS `Date` constructor -/

/-- Whether `(y, m, d)` is a calendar-valid date (month 1..12, day within
the month).  This is the validation `parseISO` performs, and also the
calendar-validity notion the specification's fallback rule refers to. -/
def validCivil (y m d : Int) : Bool :=
  1 ≤ m && m ≤ 12 && 1 ≤ d && d ≤ daysInMonth y m

/-- date-fns `parseISO`, modelled on the date strings this dataset
contains (digit/dash/slash forms): it succeeds exactly on
`YYYY-MM-DD`, `YYYY-MM` and `YYYY` shapes with four-digit years and
calendar-valid components, and fails on anything slash-delimited or
otherwise shaped (in particular on every ambiguous `A-B-C` form whose
trailing component is a four-digit year).  Two-digit-century ISO forms
and week/ordinal/time forms do not occur in this data and are outside
the model. -/
def parseISOdays (s : String) : Option Int :=
  if s.data.contains '/' then none
  else
    match (splitChars (fun c => c = '-') s.data).map (fun cs => String.mk cs) with
    | [a] =>
      if a.length = 4 && a.data.all Char.isDigit then
        some (daysFromCivil (digitsToNat a.data) 1 1)
      else none
    | [a, b] =>
      if a.length = 4 && a.data.all Char.isDigit
          && b.length = 2 && b.data.all Char.isDigit
          && validCivil (digitsToNat a.data) (digitsToNat b.data) 1 then
        some (daysFromCivil (digitsToNat a.data) (digitsToNat b.data) 1)
      else none
    | [a, b, c] =>
      if a.length = 4 && a.data.all Char.isDigit
          && b.length = 2 && b.data.all Char.isDigit
          && c.length = 2 && c.data.all Char.isDigit
          && validCivil (digitsToNat a.data) (digitsToNat b.data) (digitsToNat c.data) then
        some (daysFromCivil (digitsToNat a.data) (digitsToNat b.data) (digitsToNat c.data))
      else none
    | _ => none

/-- The day count produced by `new Date(y, m, d)` before range checking:
two-digit years map to 1900+y, out-of-range months and days roll over
(month is normalized into the year, the day offset is added to the first
of the normalized month). -/
def jsTimeFromArgs (y m d : Int) : Int :=
  let yr := if 0 ≤ y && y ≤ 99 then 1900 + y else y
  let ym := yr * 12 + m
  daysFromCivil (ym.fdiv 12) (ym.emod 12 + 1) 1 + (d - 1)

/-- JS `new Date(y, m, d)` (arguments already coerced to numbers;
`none` = some argument was `NaN`).  The result is an invalid date when
the time value leaves the representable range (±1e8 days). -/
def jsMakeDate (y m d : Option Int) : Option Int :=
  match y, m, d with
  | some y, some m, some d =>
    let t := jsTimeFromArgs y m d
    if -100000000 ≤ t && t ≤ 100000000 then some t else none
  | _, _, _ => none

/-- `new Date(str)` as used for the third fallback candidate: the
engine only reaches it with digit components, where V8 accepts exactly
the strict ISO date shapes; modelled by the same grammar as
`parseISOdays`. -/
def jsDateFromString (s : String) : Option Int := parseISOdays s

/-! ## The week-key normalizer (`getWeekNumber`) -/

/-- `weekNum.toString().padStart(2, "0")`. -/
def padStart2 (s : String) : String :=
  if s.length ≥ 2 then s else if s.length = 1 then "0" ++ s else "00"

/-- The `${year}-W${paddedWeek}` template over a resolved date: calendar
year, ISO week number, week zero-padded to two digits. -/
def weekKeyOfDays (t : Int) : String :=
  toString (getYearOf t) ++ "-W" ++ padStart2 (toString (getISOWeekOf t))

/-- The date-resolution part of v1 `getWeekNumber` on a string input:
`parseISO` first; if invalid, split on dash/slash into exactly three
components and take the first valid of
`new Date(parts2, parts0 - 1, parts1)`,
`new Date(parts2, parts1 - 1, parts0)`,
`new Date(parts2 ++ "-" ++ parts0 ++ "-" ++ parts1)`. -/
def resolveDateStr (s : String) : Option Int :=
  match parseISOdays s with
  | some t => some t
  | none =>
    match splitDashSlash s with
    | [a, b, c] =>
      let cands := [jsMakeDate (jsToNumber c) ((jsToNumber a).map (fun n => n - 1)) (jsToNumber b),
                    jsMakeDate (jsToNumber c) ((jsToNumber b).map (fun n => n - 1)) (jsToNumber a),
                    jsDateFromString (c ++ "-" ++ a ++ "-" ++ b)]
      (cands.filterMap id).head?
    | _ => none

/-- v1 `getWeekNumber` on a string: `null` (`none`) when every parsing
strategy fails, otherwise the formatted week key. -/
def getWeekNumber (s : String) : Option String :=
  (resolveDateStr s).map weekKeyOfDays

/-- v1 `getWeekNumber` on an arbitrary scalar: non-strings go through
`new Date(value)` (numbers are epoch milliseconds, truncated and
range-checked; `null` coerces to the epoch). -/
def getWeekNumberJ : JVal → Option String
  | .jstr s => getWeekNumber s
  | .jnum q =>
    let ms := jtrunc q
    if -8640000000000000 ≤ ms && ms ≤ 8640000000000000 then
      some (weekKeyOfDays (ms.fdiv 86400000))
    else none
  | .jnull => some (weekKeyOfDays 0)

/-- v2 `getWeekNumber` on a string input: `parseISO` never throws, and
`getISOWeek`/`getYear` of an invalid date are `NaN`, so an unparseable
string produces the literal key `"NaN-WNaN"` — the `catch` branch
returning `"Unknown"` is unreachable for string inputs. -/
def getWeekNumberV2 (s : String) : String :=
  match parseISOdays s with
  | some t => weekKeyOfDays t
  | none => "NaN-WNaN"

/-- v2 `getWeekNumber` on an arbitrary scalar. -/
def getWeekNumberV2J : JVal → String
  | .jstr s => getWeekNumberV2 s
  | .jnum q =>
    let ms := jtrunc q
    if -8640000000000000 ≤ ms && ms ≤ 8640000000000000 then
      weekKeyOfDays (ms.fdiv 86400000)
    else "NaN-WNaN"
  | .jnull => weekKeyOfDays 0

/-! ## v1 per-source aggregators -/

/-- Bucket accumulation `if (!m[k]) m[k] = 0; m[k] += v` (a falsy
existing value is reset to zero first, which coincides with plain
addition for the numeric values stored here). -/
def addTo (m : Obj ℚ) (k : String) (v : ℚ) : Obj ℚ :=
  match objGet m k with
  | some old => objSet m k (old + v)
  | none => objSet m k v

/-- The field-alias resolutions of v1 `processProductData`. -/
def resolveProductName (p : RawRecord) : JVal :=
  jsOr (fld p "Product Name") (jsOr (fld p "ProductName") (jsOr (fld p "Name") (fld p "Product")))

def resolveUnitsPerCase (p : RawRecord) : JVal :=
  jsOr (fld p "Units Per Case") (jsOr (fld p "UnitsPerCase") (jsOr (fld p "Units") (.jstr "1")))

/-- One record of v1 `processProductData`: index the record iff the
resolved name is truthy and `parseInt` of the resolved units value
(which defaults to the string `"1"` when every alias is falsy) is a
number greater than zero. -/
def productStep (m : Obj Int) (p : RawRecord) : Obj Int :=
  let productName := resolveProductName p
  match jsParseInt (resolveUnitsPerCase p) with
  | some u => if truthy productName && 0 < u then objSet m (jkey productName) u else m
  | none => m

/-- v1 `processProductData`. -/
def processProductData (products : List RawRecord) : Obj Int :=
  products.foldl productStep []

/-- The sales-side state: cases by week, and cases by store by week. -/
structure SalesAcc where
  salesByWeek : Obj ℚ
  salesByStoreAndWeek : Obj (Obj ℚ)
deriving DecidableEq, Repr

def resolveSalesProduct (o : RawRecord) : JVal :=
  jsOr (fld o "Product") (jsOr (fld o "Product Name") (fld o "ProductName"))

def resolveSalesQuantity (o : RawRecord) : Option Int :=
  jsParseInt (jsOr (fld o "Quantity") (jsOr (fld o "Qty") (.jnum 0)))

def resolveSalesCustomer (o : RawRecord) : JVal :=
  jsOr (fld o "Customer") (jsOr (fld o "Store") (jsOr (fld o "Client") (.jstr "Unknown")))

def resolveSalesDate (o : RawRecord) : JVal :=
  jsOr (fld o "Delivery Date") (jsOr (fld o "DeliveryDate") (fld o "Date"))

/-- One record of v1 `processSalesData`: skip on missing/falsy product,
quantity ≤ 0 or `NaN`, falsy date, product not in the index, or week
normalization failure; otherwise accumulate `quantity / unitsPerCase`
into the week bucket and the (store, week) bucket. -/
def salesStep (productMap : Obj Int) (acc : SalesAcc) (o : RawRecord) : SalesAcc :=
  let product := resolveSalesProduct o
  let customer := resolveSalesCustomer o
  let deliveryDate := resolveSalesDate o
  match resolveSalesQuantity o with
  | none => acc
  | some q =>
    if !truthy product || q = 0 || !truthy deliveryDate || q ≤ 0 then acc
    else
      match objGet productMap (jkey product) with
      | none => acc
      | some upc =>
        if upc = 0 then acc
        else
          let cases : ℚ := (q : ℚ) / (upc : ℚ)
          match getWeekNumberJ deliveryDate with
          | none => acc
          | some week =>
            { salesByWeek := addTo acc.salesByWeek week cases
              salesByStoreAndWeek :=
                let inner := (objGet acc.salesByStoreAndWeek (jkey customer)).getD []
                objSet acc.salesByStoreAndWeek (jkey customer) (addTo inner week cases) }

/-- v1 `processSalesData`. -/
def processSalesData (salesOrders : List RawRecord) (productMap : Obj Int) : SalesAcc :=
  salesOrders.foldl (salesStep productMap) ⟨[], []⟩

def resolvePOProduct (o : RawRecord) : JVal :=
  jsOr (fld o "Product Name") (jsOr (fld o "Product") (fld o "ProductName"))

def resolvePOQuantity (o : RawRecord) : Option Int :=
  jsParseInt (jsOr (fld o "Purchase Quantity") (jsOr (fld o "Quantity") (jsOr (fld o "Qty") (.jnum 0))))

def resolvePODate (o : RawRecord) : JVal :=
  jsOr (fld o "Purchase Order Date") (jsOr (fld o "PODate") (fld o "Date"))

/-- One record of v1 `processPurchaseData`. -/
def poStep (productMap : Obj Int) (m : Obj ℚ) (o : RawRecord) : Obj ℚ :=
  let product := resolvePOProduct o
  let poDate := resolvePODate o
  match resolvePOQuantity o with
  | none => m
  | some q =>
    if !truthy product || q = 0 || !truthy poDate || q ≤ 0 then m
    else
      match objGet productMap (jkey product) with
      | none => m
      | some upc =>
        if upc = 0 then m
        else
          let cases : ℚ := (q : ℚ) / (upc : ℚ)
          match getWeekNumberJ poDate with
          | none => m
          | some week => addTo m week cases

/-- v1 `processPurchaseData`. -/
def processPurchaseData (purchaseOrders : List RawRecord) (productMap : Obj Int) : Obj ℚ :=
  purchaseOrders.foldl (poStep productMap) []

def resolveClockDate (c : RawRecord) : JVal :=
  jsOr (fld c "Date In") (jsOr (fld c "DateIn") (fld c "Date"))

def resolveClockHours (c : RawRecord) : Option ℚ :=
  jsParseFloat (jsOr (fld c "Total Less Break") (jsOr (fld c "TotalLessBreak") (jsOr (fld c "Hours") (.jnum 0))))

/-- One record of v1 `processClockData`. -/
def clockStep (m : Obj ℚ) (c : RawRecord) : Obj ℚ :=
  let dateIn := resolveClockDate c
  match resolveClockHours c with
  | none => m
  | some h =>
    if !truthy dateIn || h ≤ 0 then m
    else
      match getWeekNumberJ dateIn with
      | none => m
      | some week => addTo m week h

/-- v1 `processClockData`. -/
def processClockData (clocks : List RawRecord) : Obj ℚ :=
  clocks.foldl clockStep []

/-! ## The week-key comparator and the JS sort -/

/-- First-occurrence split of a week key at the substring `"-W"`,
yielding the year and week pieces the sort comparator feeds to
`parseInt` (`"2024-W05"` ↦ `("2024", "05")`). -/
def splitDashW : List Char → (List Char × List Char)
  | [] => ([], [])
  | '-' :: 'W' :: rest => ([], rest)
  | c :: rest =>
    let r := splitDashW rest
    (c :: r.1, r.2)

def weekKeyYearStr (s : String) : String := String.mk (splitDashW s.data).1
def weekKeyWeekStr (s : String) : String := String.mk (splitDashW s.data).2

/-- The sort comparator of `calculateMetrics` on week keys: unequal
year *strings* compare by `parseInt` of the years, equal year strings
by `parseInt` of the weeks.  A `NaN` from `parseInt` makes the
comparator misbehave in JS; the model renders it as 0 (compare-equal),
which is how V8 treats a `NaN` comparator result. -/
def weekCmp (a b : String) : Int :=
  if weekKeyYearStr a ≠ weekKeyYearStr b then
    (jsParseIntStr (weekKeyYearStr a)).getD 0 - (jsParseIntStr (weekKeyYearStr b)).getD 0
  else
    (jsParseIntStr (weekKeyWeekStr a)).getD 0 - (jsParseIntStr (weekKeyWeekStr b)).getD 0

def weekLt (a b : String) : Bool := weekCmp a b < 0

/-- Insertion into a sorted list, passing every element strictly below
the new one: the stable-insertion core of `Array.prototype.sort` as
required by the ECMAScript specification. -/
def jsInsert {a : Type} (lt : a → a → Bool) (x : a) : List a → List a
  | [] => [x]
  | y :: l => if lt y x then y :: jsInsert lt x l else x :: y :: l

/-- `Array.prototype.sort(comparator)`: a stable sort with respect to
the strict `comparator < 0` relation. -/
def jsSort {a : Type} (lt : a → a → Bool) : List a → List a
  | [] => []
  | x :: l => jsInsert lt x (jsSort lt l)

/-- JS `Set` iteration order: first occurrence wins. -/
def dedupFirstAux (seen : List String) : List String → List String
  | [] => []
  | x :: l => if x ∈ seen then dedupFirstAux seen l else x :: dedupFirstAux (x :: seen) l

def dedupFirst (l : List String) : List String := dedupFirstAux [] l

/-! ## v1 `calculateMetrics` -/

/-- `[...new Set([...keys(sales), ...keys(po), ...keys(labor)])].sort(...)` -/
def allWeeksV1 (sales po labor : Obj ℚ) : List String :=
  jsSort weekLt (dedupFirst (objKeys sales ++ objKeys po ++ objKeys labor))

structure WeekEntry where
  week : String
  receivedCases : ℚ
  shippedCases : ℚ
  laborHours : ℚ
  totalCasesPerLaborHour : ℚ
deriving DecidableEq, Repr

structure WeeklyRow where
  week : String
  received : ℚ
  shipped : ℚ
  laborHours : ℚ
  totalCasesPerLaborHour : ℚ
deriving DecidableEq, Repr

structure StoreTotalEntry where
  store : String
  total : ℚ
deriving DecidableEq, Repr

structure StoreWeekPoint where
  week : String
  cases : ℚ
  store : String
deriving DecidableEq, Repr

/-- The per-week entry of `casesPerLaborHourByWeek`: absent sources
default to zero, and efficiency is the guarded ratio. -/
def weekEntryOf (sales po labor : Obj ℚ) (week : String) : WeekEntry :=
  let receivedCases := (objGet po week).getD 0
  let shippedCases := (objGet sales week).getD 0
  let laborHours := (objGet labor week).getD 0
  { week := week
    receivedCases := receivedCases
    shippedCases := shippedCases
    laborHours := laborHours
    totalCasesPerLaborHour :=
      if 0 < laborHours then (receivedCases + shippedCases) / laborHours else 0 }

/-- `Object.values(casesPerLaborHourByWeek)`: that object is keyed by
the (distinct) members of `allWeeks` in order, so its values list is a
map over `allWeeks`. -/
def casesPerLaborHourV1 (sales po labor : Obj ℚ) : List WeekEntry :=
  (allWeeksV1 sales po labor).map (weekEntryOf sales po labor)

/-- `formattedWeeklyData` (same lookups; the `?.totalCasesPerLaborHour
|| 0` fallback coincides with the entry value, which is 0 whenever it
is falsy). -/
def formattedWeeklyDataV1 (sales po labor : Obj ℚ) : List WeeklyRow :=
  (allWeeksV1 sales po labor).map (fun week =>
    let e := weekEntryOf sales po labor week
    { week := week, received := e.receivedCases, shipped := e.shippedCases,
      laborHours := e.laborHours, totalCasesPerLaborHour := e.totalCasesPerLaborHour })

/-- `storeTotal`: per store, the sum of `Object.values` of its week
buckets. -/
def storeTotalOf (byStore : Obj (Obj ℚ)) : Obj ℚ :=
  byStore.map (fun p => (p.1, p.2.foldl (fun acc q => acc + q.2) 0))

/-- The store comparator `(a, b) => storeTotal[b] - storeTotal[a]`
as a strict relation (comparator < 0 ⟺ total of `b` < total of `a`). -/
def storeLt (storeTotal : Obj ℚ) (x y : String) : Bool :=
  (objGet storeTotal y).getD 0 < (objGet storeTotal x).getD 0

/-- `Object.keys(storeTotal).sort((a, b) => storeTotal[b] - storeTotal[a])`. -/
def allStoresV1 (storeTotal : Obj ℚ) : List String :=
  jsSort (storeLt storeTotal) (objKeys storeTotal)

/-- The dense store-by-week series: for every week of `allWeeks` and
every store of `allStores`, one point with
`salesByStoreAndWeek[store]?.[week] || 0`. -/
def allStoreDataOf (byStore : Obj (Obj ℚ)) (weeks stores : List String) : List StoreWeekPoint :=
  weeks.flatMap (fun week =>
    stores.map (fun store =>
      { week := week
        cases := ((objGet byStore store).bind (fun inner => objGet inner week)).getD 0
        store := store }))

structure MetricsV1 where
  casesPerLaborHour : List WeekEntry
  salesAndPOByWeek : List WeeklyRow
  topStoresByWeek : List StoreTotalEntry
  allStoreData : List StoreWeekPoint
  allStores : List String
  weeks : List String
deriving DecidableEq, Repr

/-- v1 `calculateMetrics`: `none` models the two thrown fatal errors
(empty product map, zero week keys). -/
def calculateMetricsV1 (products salesOrders purchaseOrders clocks : List RawRecord) :
    Option MetricsV1 :=
  let productMap := processProductData products
  if productMap.isEmpty then none
  else
    let sa := processSalesData salesOrders productMap
    let poByWeek := processPurchaseData purchaseOrders productMap
    let laborHoursByWeek := processClockData clocks
    let allWeeks := allWeeksV1 sa.salesByWeek poByWeek laborHoursByWeek
    if allWeeks.isEmpty then none
    else
      let storeTotal := storeTotalOf sa.salesByStoreAndWeek
      let allStores := allStoresV1 storeTotal
      let topStores := allStores.take 10
      some
        { casesPerLaborHour := casesPerLaborHourV1 sa.salesByWeek poByWeek laborHoursByWeek
          salesAndPOByWeek := formattedWeeklyDataV1 sa.salesByWeek poByWeek laborHoursByWeek
          topStoresByWeek := topStores.map (fun s => ⟨s, (objGet storeTotal s).getD 0⟩)
          allStoreData := allStoreDataOf sa.salesByStoreAndWeek allWeeks allStores
          allStores := allStores
          weeks := allWeeks }

/-! ## v2 pipeline (the earlier dashboard variant)

v2 performs no per-record validation beyond truthiness checks, so `NaN`
can enter its buckets; bucket values are therefore `Option ℚ` with
`none` standing for a non-finite number. -/

/-- JS `+` on possibly non-finite numbers. -/
def jsAdd (a b : Option ℚ) : Option ℚ :=
  match a, b with
  | some x, some y => some (x + y)
  | _, _ => none

/-- JS `/` on possibly non-finite numbers; division by zero yields a
non-finite result. -/
def jsDivQ (a b : Option ℚ) : Option ℚ :=
  match a, b with
  | some x, some y => if y = 0 then none else some (x / y)
  | _, _ => none

/-- `x || 0` over a possibly-absent, possibly non-finite bucket value
(`NaN` is falsy, so it is replaced by `0`). -/
def jsOrZero : Option (Option ℚ) → ℚ
  | some (some x) => x
  | some none => 0
  | none => 0

/-- v2 bucket accumulation `if (!m[k]) m[k] = 0; m[k] += v` (an absent,
zero or `NaN` entry resets to zero before the addition). -/
def addToV2 (m : Obj (Option ℚ)) (k : String) (v : Option ℚ) : Obj (Option ℚ) :=
  let base : Option ℚ :=
    match objGet m k with
    | some (some old) => some old
    | some none => some 0
    | none => some 0
  objSet m k (jsAdd base v)

/-- One record of the v2 product-map block: indexed iff `Product Name`
is truthy; the stored units value is unvalidated
(`product["Units Per Case"] || 1`). -/
def productStepV2 (m : Obj JVal) (p : RawRecord) : Obj JVal :=
  if truthy (fld p "Product Name") then
    objSet m (jkey (fld p "Product Name")) (jsOr (fld p "Units Per Case") (.jnum 1))
  else m

def processProductDataV2 (products : List RawRecord) : Obj JVal :=
  products.foldl productStepV2 []

structure SalesAccV2 where
  salesByWeek : Obj (Option ℚ)
  salesByStoreAndWeek : Obj (Obj (Option ℚ))
deriving DecidableEq, Repr

/-- One record of the v2 sales block: skip only on falsy product, a
product missing from the map, a falsy delivery date, or a week equal to
the (unreachable) `"Unknown"` sentinel; there is no quantity or
calendar validation, and a failed date parse yields the literal week
`"NaN-WNaN"` which is accumulated like any other key. -/
def salesStepV2 (productMap : Obj JVal) (acc : SalesAccV2) (o : RawRecord) : SalesAccV2 :=
  let product := fld o "Product"
  let quantity := jsOr (fld o "Quantity") (.jnum 0)
  let customer := jsOr (fld o "Customer") (.jstr "Unknown")
  if !truthy product then acc
  else
    match objGet productMap (jkey product) with
    | none => acc
    | some upcV =>
      if !truthy upcV then acc
      else
        let unitsPerCase := jsOr upcV (.jnum 1)
        let cases := jsDivQ (jvalNum quantity) (jvalNum unitsPerCase)
        let deliveryDate := fld o "Delivery Date"
        if !truthy deliveryDate then acc
        else
          let week := getWeekNumberV2J deliveryDate
          if week = "Unknown" then acc
          else
            { salesByWeek := addToV2 acc.salesByWeek week cases
              salesByStoreAndWeek :=
                let inner := (objGet acc.salesByStoreAndWeek (jkey customer)).getD []
                objSet acc.salesByStoreAndWeek (jkey customer) (addToV2 inner week cases) }

def processSalesDataV2 (orders : List RawRecord) (productMap : Obj JVal) : SalesAccV2 :=
  orders.foldl (salesStepV2 productMap) ⟨[], []⟩

/-- One record of the v2 purchase-order block. -/
def poStepV2 (productMap : Obj JVal) (m : Obj (Option ℚ)) (o : RawRecord) : Obj (Option ℚ) :=
  let product := fld o "Product Name"
  let quantity := jsOr (fld o "Purchase Quantity") (.jnum 0)
  if !truthy product then m
  else
    match objGet productMap (jkey product) with
    | none => m
    | some upcV =>
      if !truthy upcV then m
      else
        let unitsPerCase := jsOr upcV (.jnum 1)
        let cases := jsDivQ (jvalNum quantity) (jvalNum unitsPerCase)
        let poDate := fld o "Purchase Order Date"
        if !truthy poDate then m
        else
          let week := getWeekNumberV2J poDate
          if week = "Unknown" then m
          else addToV2 m week cases

def processPurchaseDataV2 (orders : List RawRecord) (productMap : Obj JVal) : Obj (Option ℚ) :=
  orders.foldl (poStepV2 productMap) []

/-- One record of the v2 labor block. -/
def clockStepV2 (m : Obj (Option ℚ)) (c : RawRecord) : Obj (Option ℚ) :=
  if !truthy (fld c "Date In") then m
  else
    let week := getWeekNumberV2J (fld c "Date In")
    if week = "Unknown" then m
    else
      let laborHours := jsOr (fld c "Total Less Break") (.jnum 0)
      addToV2 m week (jvalNum laborHours)

def processClockDataV2 (clocks : List RawRecord) : Obj (Option ℚ) :=
  clocks.foldl clockStepV2 []

/-- v2 `allWeeks`: the union of the **sales and purchase** week keys
only — the labor keys are not included. -/
def allWeeksV2 (sales po : Obj (Option ℚ)) : List String :=
  jsSort weekLt (dedupFirst (objKeys sales ++ objKeys po))

/-- The v2 per-week entry: each source value goes through `|| 0`, so
the published fields are plain numbers even when a bucket held `NaN`. -/
def weekEntryV2Of (sales po labor : Obj (Option ℚ)) (week : String) : WeekEntry :=
  let receivedCases := jsOrZero (objGet po week)
  let shippedCases := jsOrZero (objGet sales week)
  let laborHours := jsOrZero (objGet labor week)
  { week := week
    receivedCases := receivedCases
    shippedCases := shippedCases
    laborHours := laborHours
    totalCasesPerLaborHour :=
      if 0 < laborHours then (receivedCases + shippedCases) / laborHours else 0 }

/-- v2 `Object.values(casesPerLaborHourByWeek)`. -/
def casesPerLaborHourV2 (sales po labor : Obj (Option ℚ)) : List WeekEntry :=
  (allWeeksV2 sales po).map (weekEntryV2Of sales po labor)

/-- v2 `storeTotal`: a raw `reduce` without `|| 0`, so `NaN` propagates
into a store total. -/
def storeTotalV2Of (byStore : Obj (Obj (Option ℚ))) : Obj (Option ℚ) :=
  byStore.map (fun p => (p.1, p.2.foldl (fun acc q => jsAdd acc q.2) (some 0)))

/-- The v2 store comparator (a `NaN` difference is treated as
compare-equal, as V8 does). -/
def storeLtV2 (storeTotal : Obj (Option ℚ)) (x y : String) : Bool :=
  match (objGet storeTotal x).getD (some 0), (objGet storeTotal y).getD (some 0) with
  | some tx, some ty => ty < tx
  | _, _ => false

/-- v2 `allStores` (and `topStores` is its 10-element prefix: the same
sort runs twice with the same comparator and a stable sort is
deterministic). -/
def allStoresV2 (storeTotal : Obj (Option ℚ)) : List String :=
  jsSort (storeLtV2 storeTotal) (objKeys storeTotal)

/-- v2 `allStoreData`: dense, one point per week × store. -/
def allStoreDataV2 (byStore : Obj (Obj (Option ℚ))) (weeks stores : List String) :
    List StoreWeekPoint :=
  weeks.flatMap (fun week =>
    stores.map (fun store =>
      { week := week
        cases := jsOrZero ((objGet byStore store).bind (fun inner => objGet inner week))
        store := store }))

/-- End-to-end v2 week list (the `weeks` field of the v2 result). -/
def metricsWeeksV2 (products salesOrders purchaseOrders clocks : List RawRecord) :
    List String :=
  let productMap := processProductDataV2 products
  let sa := processSalesDataV2 salesOrders productMap
  let poByWeek := processPurchaseDataV2 purchaseOrders productMap
  let _ := processClockDataV2 clocks
  allWeeksV2 sa.salesByWeek poByWeek

/-- End-to-end v2 `casesPerLaborHour` series. -/
def metricsWeeklyV2 (products salesOrders purchaseOrders clocks : List RawRecord) :
    List WeekEntry :=
  let productMap := processProductDataV2 products
  let sa := processSalesDataV2 salesOrders productMap
  let poByWeek := processPurchaseDataV2 purchaseOrders productMap
  let laborHoursByWeek := processClockDataV2 clocks
  casesPerLaborHourV2 sa.salesByWeek poByWeek laborHoursByWeek

/-! ## Week-key order, semantically -/

/-- A well-formed week key as emitted by the normalizers: a four-digit
year, the separator `"-W"`, and a two-digit week. -/
def wfWeekKey (s : String) : Bool :=
  let p := splitDashW s.data
  p.1.length = 4 && p.1.all Char.isDigit && p.2.length = 2 && p.2.all Char.isDigit

/-- The year of a week key as the comparator reads it. -/
def weekYearInt (s : String) : Int := (jsParseIntStr (weekKeyYearStr s)).getD 0

/-- The week of a week key as the comparator reads it. -/
def weekWeekInt (s : String) : Int := (jsParseIntStr (weekKeyWeekStr s)).getD 0

/-- The ascending (year, week)-as-integers order on week keys. -/
def weekPairLe (a b : String) : Prop :=
  weekYearInt a < weekYearInt b ∨ (weekYearInt a = weekYearInt b ∧ weekWeekInt a ≤ weekWeekInt b)

/-- Non-strict descending order on store totals (the sorted-store
invariant). -/
def storeTotGe (storeTotal : Obj ℚ) (x y : String) : Prop :=
  (objGet storeTotal y).getD 0 ≤ (objGet storeTotal x).getD 0

/-! ## Generic lemmas: objects -/

theorem objGet_objSet_self {a : Type} (m : Obj a) (k : String) (v : a) :
    objGet (objSet m k v) k = some v := by
  induction m with
  | nil => simp [objSet, objGet]
  | cons p rest ih =>
    by_cases h : p.1 = k
    · simp [objSet, h, objGet]
    · simp [objSet, h, objGet, List.find?]
      simp only [objGet] at ih
      simpa [h] using ih

theorem objGet_objSet_ne {a : Type} (m : Obj a) (k k' : String) (v : a) (h : k' ≠ k) :
    objGet (objSet m k v) k' = objGet m k' := by
  induction m with
  | nil => simp [objSet, objGet, List.find?, Ne.symm h]
  | cons p rest ih =>
    by_cases hp : p.1 = k
    · simp [objSet, hp, objGet, List.find?, Ne.symm h, hp ▸ Ne.symm h]
    · simp only [objSet, hp, if_false]
      by_cases hp' : p.1 = k'
      · simp [objGet, List.find?, hp']
      · simp only [objGet, List.find?, hp'] at ih ⊢
        simpa [hp'] using ih

theorem mem_objKeys_objSet {a : Type} (m : Obj a) (k k' : String) (v : a) :
    k' ∈ objKeys (objSet m k v) ↔ k' = k ∨ k' ∈ objKeys m := by
  induction m with
  | nil => simp [objSet, objKeys]
  | cons p rest ih =>
    by_cases hp : p.1 = k
    · subst hp
      simp [objSet, objKeys]
    · simp only [objSet, hp, if_false, objKeys, List.map_cons, List.mem_cons] at ih ⊢
      tauto

theorem objGet_addTo_self (m : Obj ℚ) (k : String) (v : ℚ) :
    objGet (addTo m k v) k = some ((objGet m k).getD 0 + v) := by
  unfold addTo
  cases h : objGet m k with
  | none => simp [objGet_objSet_self]
  | some old => simp [objGet_objSet_self]

theorem objGet_addTo_ne (m : Obj ℚ) (k k' : String) (v : ℚ) (h : k' ≠ k) :
    objGet (addTo m k v) k' = objGet m k' := by
  unfold addTo
  cases objGet m k with
  | none => exact objGet_objSet_ne m k k' v h
  | some old => exact objGet_objSet_ne m k k' _ h

/-! ## Generic lemmas: dedupFirst -/

theorem mem_dedupFirstAux (seen l : List String) (x : String) :
    x ∈ dedupFirstAux seen l ↔ x ∈ l ∧ x ∉ seen := by
  induction l generalizing seen with
  | nil => simp [dedupFirstAux]
  | cons y t ih =>
    by_cases hy : y ∈ seen
    · simp only [dedupFirstAux, hy, if_true, ih, List.mem_cons]
      constructor
      · rintro ⟨hx, hs⟩
        exact ⟨Or.inr hx, hs⟩
      · rintro ⟨hx | hx, hs⟩
        · exact absurd (hx ▸ hy) hs
        · exact ⟨hx, hs⟩
    · simp only [dedupFirstAux, hy, if_false, List.mem_cons, ih, List.mem_cons]
      by_cases hxy : x = y
      · subst hxy
        simp [hy]
      · simp [hxy]

theorem nodup_dedupFirstAux (seen l : List String) : (dedupFirstAux seen l).Nodup := by
  induction l generalizing seen with
  | nil => simp [dedupFirstAux]
  | cons y t ih =>
    by_cases hy : y ∈ seen
    · simpa [dedupFirstAux, hy] using ih seen
    · simp only [dedupFirstAux, hy, if_false, List.nodup_cons]
      refine ⟨fun hmem => ?_, ih (y :: seen)⟩
      exact ((mem_dedupFirstAux _ _ _).1 hmem).2 (List.mem_cons_self y seen)

theorem mem_dedupFirst (l : List String) (x : String) : x ∈ dedupFirst l ↔ x ∈ l := by
  simp [dedupFirst, mem_dedupFirstAux]

theorem nodup_dedupFirst (l : List String) : (dedupFirst l).Nodup :=
  nodup_dedupFirstAux [] l

/-! ## Generic lemmas: the stable JS sort -/

theorem jsInsert_decomp {a : Type} (lt : a → a → Bool) (x : a) (l : List a) :
    ∃ l₁ l₂, l = l₁ ++ l₂ ∧ jsInsert lt x l = l₁ ++ x :: l₂ ∧ ∀ b ∈ l₁, lt b x = true := by
  induction l with
  | nil => exact ⟨[], [], rfl, rfl, by simp⟩
  | cons y t ih =>
    by_cases hy : lt y x = true
    · obtain ⟨l₁, l₂, he, hi, hb⟩ := ih
      refine ⟨y :: l₁, l₂, by simp [he], by simp [jsInsert, hy, hi], ?_⟩
      intro b hb'
      rcases List.mem_cons.1 hb' with h | h
      · exact h ▸ hy
      · exact hb b h
    · exact ⟨[], y :: t, rfl, by simp [jsInsert, hy], by simp⟩

theorem jsInsert_perm {a : Type} (lt : a → a → Bool) (x : a) (l : List a) :
    (jsInsert lt x l).Perm (x :: l) := by
  obtain ⟨l₁, l₂, he, hi, _⟩ := jsInsert_decomp lt x l
  rw [hi, he]
  exact List.perm_middle

theorem jsSort_perm {a : Type} (lt : a → a → Bool) (l : List a) :
    (jsSort lt l).Perm l := by
  induction l with
  | nil => exact List.Perm.refl _
  | cons x t ih =>
    exact (jsInsert_perm lt x (jsSort lt t)).trans (ih.cons x)

theorem jsInsert_pairwise {a : Type} (lt : a → a → Bool) (x : a) (l : List a)
    (hs : l.Pairwise (fun u v => lt v u = false))
    (hasym : ∀ b ∈ l, lt b x = true → lt x b = false)
    (htr : ∀ b ∈ l, ∀ y ∈ l, lt y b = false → lt b x = false → lt y x = false) :
    (jsInsert lt x l).Pairwise (fun u v => lt v u = false) := by
  induction l with
  | nil => simp [jsInsert]
  | cons y t ih =>
    rcases List.pairwise_cons.1 hs with ⟨hy, ht⟩
    by_cases hyx : lt y x = true
    · rw [jsInsert, if_pos hyx]
      refine List.pairwise_cons.2 ⟨?_, ?_⟩
      · intro b hb
        rcases List.mem_cons.1 ((jsInsert_perm lt x t).mem_iff.1 hb) with h | h
        · exact h ▸ hasym y (List.mem_cons_self y t) hyx
        · exact hy b h
      · refine ih ht ?_ ?_
        · intro b hb h
          exact hasym b (List.mem_cons_of_mem y hb) h
        · intro b hb z hz h1 h2
          exact htr b (List.mem_cons_of_mem y hb) z (List.mem_cons_of_mem y hz) h1 h2
    · rw [jsInsert, if_neg hyx]
      have hyxf : lt y x = false := by
        cases h : lt y x
        · rfl
        · exact absurd h hyx
      refine List.pairwise_cons.2 ⟨?_, hs⟩
      intro b hb
      rcases List.mem_cons.1 hb with h | h
      · exact h ▸ hyxf
      · exact htr y (List.mem_cons_self y t) b (List.mem_cons_of_mem y h) (hy b h) hyxf

theorem jsSort_pairwise {a : Type} (lt : a → a → Bool) (l : List a)
    (hasym : ∀ u ∈ l, ∀ v ∈ l, lt u v = true → lt v u = false)
    (htr : ∀ u ∈ l, ∀ v ∈ l, ∀ w ∈ l, lt v u = false → lt w v = false → lt w u = false) :
    (jsSort lt l).Pairwise (fun u v => lt v u = false) := by
  induction l with
  | nil => simp [jsSort]
  | cons x t ih =>
    have hsub : ∀ b, b ∈ jsSort lt t → b ∈ t := fun b hb => (jsSort_perm lt t).mem_iff.1 hb
    refine jsInsert_pairwise lt x (jsSort lt t) ?_ ?_ ?_
    · refine ih ?_ ?_
      · intro u hu v hv h
        exact hasym u (List.mem_cons_of_mem x hu) v (List.mem_cons_of_mem x hv) h
      · intro u hu v hv w hw h1 h2
        exact htr u (List.mem_cons_of_mem x hu) v (List.mem_cons_of_mem x hv)
          w (List.mem_cons_of_mem x hw) h1 h2
    · intro b hb h
      exact hasym b (List.mem_cons_of_mem x (hsub b hb)) x (List.mem_cons_self x t) h
    · intro b hb y hy h1 h2
      exact htr x (List.mem_cons_self x t) b (List.mem_cons_of_mem x (hsub b hb))
        y (List.mem_cons_of_mem x (hsub y hy)) h2 h1

theorem jsSort_filter_tie {a : Type} (lt : a → a → Bool) (p : a → Bool) (l : List a)
    (hp : ∀ u ∈ l, ∀ v ∈ l, p u = true → p v = true → lt u v = false) :
    (jsSort lt l).filter p = l.filter p := by
  induction l with
  | nil => rfl
  | cons x t ih =>
    have ih' : (jsSort lt t).filter p = t.filter p := by
      refine ih ?_
      intro u hu v hv h1 h2
      exact hp u (List.mem_cons_of_mem x hu) v (List.mem_cons_of_mem x hv) h1 h2
    obtain ⟨l₁, l₂, he, hi, hb⟩ := jsInsert_decomp lt x (jsSort lt t)
    have hgoal : jsSort lt (x :: t) = l₁ ++ x :: l₂ := hi
    rw [hgoal, List.filter_append]
    cases hx : p x with
    | true =>
      have hl1 : l₁.filter p = [] := by
        rw [List.filter_eq_nil_iff]
        intro b hbl hpb
        have hbt : b ∈ t := (jsSort_perm lt t).mem_iff.1 (he ▸ List.mem_append_left l₂ hbl)
        have hfalse := hp b (List.mem_cons_of_mem x hbt) x (List.mem_cons_self x t) hpb hx
        rw [hb b hbl] at hfalse
        cases hfalse
      have hl2 : l₂.filter p = (jsSort lt t).filter p := by
        rw [he, List.filter_append, hl1, List.nil_append]
      simp only [hl1, List.nil_append, List.filter_cons, hx, if_true]
      rw [hl2, ih']
    | false =>
      have hsplit : l₁.filter p ++ l₂.filter p = (jsSort lt t).filter p := by
        rw [he, List.filter_append]
      simp only [List.filter_cons, hx, Bool.false_eq_true, if_false]
      rw [hsplit, ih']

/-! ## Digit-string arithmetic -/

theorem all_cons_elim {a : Type} {p : a → Bool} {c : a} {cs : List a}
    (h : (c :: cs).all p = true) : p c = true ∧ cs.all p = true := by
  simp only [List.all_cons, Bool.and_eq_true] at h
  exact h

theorem takeWhile_of_all {a : Type} (p : a → Bool) (l : List a) (h : l.all p = true) :
    l.takeWhile p = l := by
  induction l with
  | nil => rfl
  | cons c cs ih =>
    rcases all_cons_elim h with ⟨hc, hcs⟩
    simp [List.takeWhile, hc, ih hcs]

theorem isDigit_bounds (c : Char) (h : c.isDigit = true) : 48 ≤ c.toNat ∧ c.toNat ≤ 57 := by
  simp only [Char.isDigit, Bool.and_eq_true, decide_eq_true_eq, ge_iff_le] at h
  exact h

theorem isDigit_not_space (c : Char) (h : c.isDigit = true) : (c = ' ') = False := by
  rcases isDigit_bounds c h with ⟨h1, _⟩
  simp only [eq_iff_iff, iff_false]
  intro he
  subst he
  simp at h1

theorem isDigit_not_minus (c : Char) (h : c.isDigit = true) : (c = '-') = False := by
  rcases isDigit_bounds c h with ⟨h1, _⟩
  simp only [eq_iff_iff, iff_false]
  intro he
  subst he
  simp at h1

theorem isDigit_not_plus (c : Char) (h : c.isDigit = true) : (c = '+') = False := by
  rcases isDigit_bounds c h with ⟨h1, _⟩
  simp only [eq_iff_iff, iff_false]
  intro he
  subst he
  simp at h1

theorem jsParseIntStr_digits (cs : List Char) (hne : cs ≠ []) (hd : cs.all Char.isDigit = true) :
    jsParseIntStr (String.mk cs) = some (digitsToNat cs : Int) := by
  cases cs with
  | nil => exact absurd rfl hne
  | cons c rest =>
    rcases all_cons_elim hd with ⟨hc, hrest⟩
    have hns : ¬ (c = ' ') := fun he => by rw [he] at hc; simp at hc
    have hnm : ¬ (c = '-') := fun he => by rw [he] at hc; simp at hc
    have hnp : ¬ (c = '+') := fun he => by rw [he] at hc; simp at hc
    have hdata : (String.mk (c :: rest)).data = c :: rest := rfl
    unfold jsParseIntStr
    rw [hdata, List.dropWhile_cons]
    simp only [hns, decide_False, Bool.false_eq_true, if_false]
    rw [if_neg hnm, if_neg hnp]
    unfold takeDigits
    rw [takeWhile_of_all Char.isDigit (c :: rest) hd]
    simp

theorem digitsToNat_foldl (cs : List Char) (a : Nat) :
    cs.foldl (fun x c => 10 * x + (c.toNat - 48)) a = a * 10 ^ cs.length + digitsToNat cs := by
  induction cs generalizing a with
  | nil => simp [digitsToNat]
  | cons c cs ih =>
    have hL : (c :: cs).foldl (fun x c => 10 * x + (c.toNat - 48)) a
        = cs.foldl (fun x c => 10 * x + (c.toNat - 48)) (10 * a + (c.toNat - 48)) := rfl
    have hD : digitsToNat (c :: cs)
        = cs.foldl (fun x c => 10 * x + (c.toNat - 48)) (c.toNat - 48) := by
      unfold digitsToNat
      simp [List.foldl_cons]
    rw [hL, ih, hD, ih, List.length_cons, pow_succ]
    ring

theorem digitsToNat_cons (c : Char) (cs : List Char) :
    digitsToNat (c :: cs) = (c.toNat - 48) * 10 ^ cs.length + digitsToNat cs := by
  have hD : digitsToNat (c :: cs)
      = cs.foldl (fun x c => 10 * x + (c.toNat - 48)) (c.toNat - 48) := by
    unfold digitsToNat
    simp [List.foldl_cons]
  rw [hD, digitsToNat_foldl]

theorem digitsToNat_lt (cs : List Char) (hd : cs.all Char.isDigit = true) :
    digitsToNat cs < 10 ^ cs.length := by
  induction cs with
  | nil => simp [digitsToNat]
  | cons c cs ih =>
    rcases all_cons_elim hd with ⟨hc, hcs⟩
    rcases isDigit_bounds c hc with ⟨_, h57⟩
    have hd9 : c.toNat - 48 ≤ 9 := by omega
    have hrec := ih hcs
    rw [digitsToNat_cons]
    calc (c.toNat - 48) * 10 ^ cs.length + digitsToNat cs
        < (c.toNat - 48) * 10 ^ cs.length + 10 ^ cs.length := by omega
      _ = ((c.toNat - 48) + 1) * 10 ^ cs.length := by ring
      _ ≤ 10 * 10 ^ cs.length := Nat.mul_le_mul_right _ (by omega)
      _ = 10 ^ (c :: cs).length := by
          rw [List.length_cons, pow_succ]
          ring

theorem digitsToNat_inj (cs ds : List Char) (hlen : cs.length = ds.length)
    (hcs : cs.all Char.isDigit = true) (hds : ds.all Char.isDigit = true)
    (h : digitsToNat cs = digitsToNat ds) : cs = ds := by
  induction cs generalizing ds with
  | nil =>
    cases ds with
    | nil => rfl
    | cons e es => simp at hlen
  | cons c cs ih =>
    cases ds with
    | nil => simp at hlen
    | cons e es =>
      rcases all_cons_elim hcs with ⟨hc, hcs'⟩
      rcases all_cons_elim hds with ⟨he, hds'⟩
      have hl : cs.length = es.length := by simpa using hlen
      rw [digitsToNat_cons, digitsToNat_cons, ← hl] at h
      have hb1 : digitsToNat cs < 10 ^ cs.length := digitsToNat_lt cs hcs'
      have hb2 : digitsToNat es < 10 ^ cs.length := by
        rw [hl]
        exact digitsToNat_lt es hds'
      have hB : 0 < 10 ^ cs.length := Nat.pos_pow_of_pos _ (by omega)
      have hq1 : ((c.toNat - 48) * 10 ^ cs.length + digitsToNat cs) / 10 ^ cs.length
          = c.toNat - 48 := by
        rw [Nat.mul_comm, Nat.mul_add_div hB, Nat.div_eq_of_lt hb1, Nat.add_zero]
      have hq2 : ((e.toNat - 48) * 10 ^ cs.length + digitsToNat es) / 10 ^ cs.length
          = e.toNat - 48 := by
        rw [Nat.mul_comm, Nat.mul_add_div hB, Nat.div_eq_of_lt hb2, Nat.add_zero]
      have hdig : c.toNat - 48 = e.toNat - 48 := by rw [← hq1, ← hq2, h]
      have hrest : digitsToNat cs = digitsToNat es := by
        rw [hdig] at h
        omega
      have hce : c = e := by
        rcases isDigit_bounds c hc with ⟨hc48, _⟩
        rcases isDigit_bounds e he with ⟨he48, _⟩
        have : c.toNat = e.toNat := by omega
        exact Char.ext (UInt32.ext this)
      rw [hce, ih es hl hcs' hds' hrest]

/-! ## Week comparator characterization -/

theorem wf_elim (s : String) (h : wfWeekKey s = true) :
    (splitDashW s.data).1.length = 4 ∧ (splitDashW s.data).1.all Char.isDigit = true ∧
    (splitDashW s.data).2.length = 2 ∧ (splitDashW s.data).2.all Char.isDigit = true := by
  simp only [wfWeekKey, Bool.and_eq_true, decide_eq_true_eq] at h
  exact ⟨h.1.1.1, h.1.1.2, h.1.2, h.2⟩

theorem weekYearInt_wf (s : String) (h : wfWeekKey s = true) :
    weekYearInt s = (digitsToNat (splitDashW s.data).1 : Int) := by
  obtain ⟨h1, h2, _, _⟩ := wf_elim s h
  unfold weekYearInt weekKeyYearStr
  rw [jsParseIntStr_digits _ (by intro he; rw [he] at h1; simp at h1) h2]
  rfl

theorem weekWeekInt_wf (s : String) (h : wfWeekKey s = true) :
    weekWeekInt s = (digitsToNat (splitDashW s.data).2 : Int) := by
  obtain ⟨_, _, h3, h4⟩ := wf_elim s h
  unfold weekWeekInt weekKeyWeekStr
  rw [jsParseIntStr_digits _ (by intro he; rw [he] at h3; simp at h3) h4]
  rfl

theorem weekYear_inj (a b : String) (ha : wfWeekKey a = true) (hb : wfWeekKey b = true)
    (hne : weekKeyYearStr a ≠ weekKeyYearStr b) : weekYearInt a ≠ weekYearInt b := by
  obtain ⟨ha1, ha2, _, _⟩ := wf_elim a ha
  obtain ⟨hb1, hb2, _, _⟩ := wf_elim b hb
  rw [weekYearInt_wf a ha, weekYearInt_wf b hb]
  intro h
  apply hne
  have hnat : digitsToNat (splitDashW a.data).1 = digitsToNat (splitDashW b.data).1 := by
    exact_mod_cast h
  have heq := digitsToNat_inj _ _ (ha1.trans hb1.symm) ha2 hb2 hnat
  unfold weekKeyYearStr
  rw [heq]

theorem weekCmp_nonneg_iff (a b : String) (ha : wfWeekKey a = true) (hb : wfWeekKey b = true) :
    0 ≤ weekCmp a b ↔ weekPairLe b a := by
  by_cases h : weekKeyYearStr a = weekKeyYearStr b
  · have hy : weekYearInt a = weekYearInt b := by
      unfold weekYearInt
      rw [h]
    have hc : weekCmp a b = weekWeekInt a - weekWeekInt b := by
      unfold weekCmp
      rw [if_neg (fun hne => hne h)]
      rfl
    rw [hc]
    unfold weekPairLe
    omega
  · have hy := weekYear_inj a b ha hb h
    have hc : weekCmp a b = weekYearInt a - weekYearInt b := by
      unfold weekCmp
      rw [if_pos h]
      rfl
    rw [hc]
    unfold weekPairLe
    omega

theorem weekCmp_neg (a b : String) : weekCmp b a = -weekCmp a b := by
  unfold weekCmp
  by_cases h : weekKeyYearStr a = weekKeyYearStr b
  · rw [if_neg (fun hne => hne h.symm), if_neg (fun hne => hne h)]
    ring
  · rw [if_pos (fun he => h he.symm), if_pos h]
    ring

theorem weekPairLe_trans {a b c : String} (h1 : weekPairLe a b) (h2 : weekPairLe b c) :
    weekPairLe a c := by
  unfold weekPairLe at *
  omega

theorem jsToNumber_digits (s : String) (hne : s.data ≠ []) (hd : s.data.all Char.isDigit = true) :
    jsToNumber s = some (digitsToNat s.data : Int) := by
  unfold jsToNumber
  rw [if_neg (by simpa using hne), if_pos hd]

/-! ## Claim C1 -/

/-- C1 (amended): every successfully parsed date value is formatted
from the ISO week number and the **calendar** year of the resolved
date (not the ISO week-numbering year), with the week zero-padded to
two digits. -/
theorem c1_weekKey_from_calendar_year (s w : String) (h : getWeekNumber s = some w) :
    ∃ t, resolveDateStr s = some t ∧
      w = toString (getYearOf t) ++ "-W" ++ padStart2 (toString (getISOWeekOf t)) := by
  unfold getWeekNumber at h
  cases ht : resolveDateStr s with
  | none =>
    rw [ht] at h
    cases h
  | some t =>
    rw [ht] at h
    simp only [Option.map_some'] at h
    exact ⟨t, rfl, by rw [← Option.some.inj h]; rfl⟩

/-- Witness for C1 at the spec's own example date. -/
theorem c1_weekKey_from_calendar_year_witness :
    ∃ t, resolveDateStr "2024-01-08" = some t ∧
      "2024-W02" = toString (getYearOf t) ++ "-W" ++ padStart2 (toString (getISOWeekOf t)) :=
  c1_weekKey_from_calendar_year "2024-01-08" "2024-W02" (by rfl)

/-- C1 counterexample: for 2024-12-30 (ISO week 1 of week-numbering
year 2025) the normalizer returns "2024-W01", built from the calendar
year, while the claim's ISO week-numbering year formatting would give
"2025-W01". -/
theorem c1_counterexample :
    getWeekNumber "2024-12-30" = some "2024-W01" ∧
    getYearOf (daysFromCivil 2024 12 30) = 2024 ∧
    getISOWeekYear (daysFromCivil 2024 12 30) = 2025 ∧
    getISOWeekOf (daysFromCivil 2024 12 30) = 1 ∧
    toString (getISOWeekYear (daysFromCivil 2024 12 30)) ++ "-W" ++
      padStart2 (toString (getISOWeekOf (daysFromCivil 2024 12 30))) = "2025-W01" ∧
    ("2025-W01" : String) ≠ "2024-W01" :=
  ⟨by rfl, by rfl, by rfl, by rfl, by rfl, by decide⟩

/-! ## Claim C2 -/

/-- C2 (amended): for a non-ISO date string splitting into three
numeric components (A, B, C), the fallback is tried in the order
(month, day, year) and (day, month, year) through the JS `Date`
constructor, then an ISO reassembly `C-A-B`; but the constructor rolls
over out-of-range components instead of rejecting them, so whenever all
three components are numeric (and the result is a representable date)
the **first** (month, day, year) interpretation is accepted as the
rolled-over date `new Date(C, A - 1, B)` — an interpretation whose
components are not calendar-valid is not rejected. -/
theorem c2_fallback_uses_rolled_over_mdy (s a b c : String)
    (hsplit : splitDashSlash s = [a, b, c])
    (ha1 : a.data ≠ []) (ha2 : a.data.all Char.isDigit = true)
    (hb1 : b.data ≠ []) (hb2 : b.data.all Char.isDigit = true)
    (hc1 : c.data ≠ []) (hc2 : c.data.all Char.isDigit = true)
    (hiso : parseISOdays s = none)
    (hlo : -100000000 ≤ jsTimeFromArgs (digitsToNat c.data)
      ((digitsToNat a.data : Int) - 1) (digitsToNat b.data))
    (hhi : jsTimeFromArgs (digitsToNat c.data)
      ((digitsToNat a.data : Int) - 1) (digitsToNat b.data) ≤ 100000000) :
    getWeekNumber s = some (weekKeyOfDays (jsTimeFromArgs (digitsToNat c.data)
      ((digitsToNat a.data : Int) - 1) (digitsToNat b.data))) := by
  have hfirst : jsMakeDate (some (digitsToNat c.data : Int))
      (some ((digitsToNat a.data : Int) - 1))
      (some (digitsToNat b.data : Int))
      = some (jsTimeFromArgs (digitsToNat c.data)
        ((digitsToNat a.data : Int) - 1) (digitsToNat b.data)) := by
    simp only [jsMakeDate]
    rw [if_pos (by simp only [Bool.and_eq_true, decide_eq_true_eq]; exact ⟨hlo, hhi⟩)]
  unfold getWeekNumber resolveDateStr
  rw [hiso, hsplit]
  simp only [jsToNumber_digits a ha1 ha2, jsToNumber_digits b hb1 hb2,
    jsToNumber_digits c hc1 hc2, hfirst, List.filterMap_cons, id_eq,
    Option.map_some', List.head?_cons]

/-- Witness for C2 at the spec's ambiguous-date example "03-04-2024"
(resolved as March 4, 2024 — the (month, day, year) reading). -/
theorem c2_fallback_uses_rolled_over_mdy_witness :
    getWeekNumber "03-04-2024" = some (weekKeyOfDays (jsTimeFromArgs (digitsToNat "2024".data)
      ((digitsToNat "03".data : Int) - 1) (digitsToNat "04".data))) ∧
    weekKeyOfDays (jsTimeFromArgs (digitsToNat "2024".data)
      ((digitsToNat "03".data : Int) - 1) (digitsToNat "04".data)) = "2024-W10" :=
  ⟨c2_fallback_uses_rolled_over_mdy "03-04-2024" "03" "04" "2024" (by rfl)
      (by decide) (by decide) (by decide) (by decide) (by decide) (by decide)
      (by rfl) (by decide) (by decide),
    by rfl⟩

/-- C2 counterexample: "13-45-2024" is calendar-valid under none of
the three claimed interpretations (month 13 / day 45 under
(month, day, year); month 45 under (day, month, year); month 45 under
(year, month, day)), so the claim requires a parse failure — but the
code accepts the first constructor candidate with rollover and returns
week 2025-W07 (February 14, 2025). -/
theorem c2_counterexample :
    getWeekNumber "13-45-2024" = some "2025-W07" ∧
    validCivil 2024 13 45 = false ∧
    validCivil 2024 45 13 = false ∧
    validCivil 13 45 2024 = false :=
  ⟨by rfl, by decide, by decide, by decide⟩

/-! ## Claim C3 -/

theorem weekLt_false_iff (a b : String) : weekLt a b = false ↔ 0 ≤ weekCmp a b := by
  simp [weekLt, not_lt]

theorem weekLt_true_iff (a b : String) : weekLt a b = true ↔ weekCmp a b < 0 := by
  simp [weekLt]

/-- C3 (amended): in the reworked variant the weekly series has exactly
one entry per key in the union of the sales, purchase **and labor**
week keys, sorted ascending by (year, week) parsed as integers; in the
earlier variant the union covers only the sales and purchase keys, so a
week present only in labor data does not appear there. -/
theorem c3_week_union_and_order (sales po labor : Obj ℚ)
    (hwf : ∀ k, k ∈ objKeys sales ++ objKeys po ++ objKeys labor → wfWeekKey k = true) :
    (∀ k, k ∈ allWeeksV1 sales po labor ↔
      (k ∈ objKeys sales ∨ k ∈ objKeys po ∨ k ∈ objKeys labor)) ∧
    (allWeeksV1 sales po labor).Nodup ∧
    (allWeeksV1 sales po labor).Pairwise weekPairLe ∧
    (casesPerLaborHourV1 sales po labor).map WeekEntry.week = allWeeksV1 sales po labor ∧
    (∀ (sales2 po2 : Obj (Option ℚ)) (k : String),
      k ∈ allWeeksV2 sales2 po2 ↔ (k ∈ objKeys sales2 ∨ k ∈ objKeys po2)) := by
  set L := objKeys sales ++ objKeys po ++ objKeys labor with hL
  have hmemL : ∀ k, k ∈ dedupFirst L → wfWeekKey k = true := by
    intro k hk
    exact hwf k ((mem_dedupFirst L k).1 hk)
  have hperm := jsSort_perm weekLt (dedupFirst L)
  refine ⟨?_, ?_, ?_, ?_, ?_⟩
  · intro k
    rw [allWeeksV1, ← hL, hperm.mem_iff, mem_dedupFirst, hL]
    simp [List.mem_append, or_assoc]
  · rw [allWeeksV1, ← hL]
    exact (hperm.nodup_iff).2 (nodup_dedupFirst L)
  · have hpw := jsSort_pairwise weekLt (dedupFirst L) ?_ ?_
    · rw [allWeeksV1, ← hL]
      refine List.Pairwise.imp_of_mem ?_ hpw
      intro u v hu hv h
      have hwu := hmemL u (hperm.mem_iff.1 hu)
      have hwv := hmemL v (hperm.mem_iff.1 hv)
      exact (weekCmp_nonneg_iff v u hwv hwu).1 ((weekLt_false_iff v u).1 h)
    · intro u _ v _ h
      rw [weekLt_true_iff] at h
      rw [weekLt_false_iff, weekCmp_neg u v]
      omega
    · intro u hu v hv w hw h1 h2
      have hwu := hmemL u hu
      have hwv := hmemL v hv
      have hww := hmemL w hw
      rw [weekLt_false_iff] at h1 h2 ⊢
      have hle1 := (weekCmp_nonneg_iff v u hwv hwu).1 h1
      have hle2 := (weekCmp_nonneg_iff w v hww hwv).1 h2
      exact (weekCmp_nonneg_iff w u hww hwu).2 (weekPairLe_trans hle1 hle2)
  · rw [casesPerLaborHourV1, List.map_map]
    have hcomp : WeekEntry.week ∘ weekEntryOf sales po labor = id := rfl
    rw [hcomp, List.map_id]
  · intro sales2 po2 k
    rw [allWeeksV2, (jsSort_perm weekLt _).mem_iff, mem_dedupFirst]
    simp [List.mem_append]

/-- Witness for C3: a labor-only week appears in the v1 union. -/
theorem c3_week_union_and_order_witness :
    "2024-W03" ∈ allWeeksV1 [("2024-W02", (1 : ℚ))] [] [("2024-W03", (5 : ℚ))] ↔
      ("2024-W03" ∈ objKeys [("2024-W02", (1 : ℚ))] ∨
        "2024-W03" ∈ objKeys ([] : Obj ℚ) ∨
        "2024-W03" ∈ objKeys [("2024-W03", (5 : ℚ))]) :=
  (c3_week_union_and_order [("2024-W02", (1 : ℚ))] [] [("2024-W03", (5 : ℚ))]
    (by decide)).1 "2024-W03"

/-- C3 counterexample: in the earlier (v2) variant a valid clock record
for 2024-01-15 (week 2024-W03) produces a labor bucket, yet the
composed week list — built only from sales and purchase keys —
omits that week, contradicting the claimed three-way union. -/
theorem c3_counterexample :
    metricsWeeksV2
        [[("Product Name", JVal.jstr "Widget"), ("Units Per Case", JVal.jnum 10)]]
        [[("Product", JVal.jstr "Widget"), ("Quantity", JVal.jnum 10),
          ("Customer", JVal.jstr "Acme"), ("Delivery Date", JVal.jstr "2024-01-08")]]
        []
        [[("Date In", JVal.jstr "2024-01-15"), ("Total Less Break", JVal.jnum 5)]]
      = ["2024-W02"] ∧
    objKeys (processClockDataV2
        [[("Date In", JVal.jstr "2024-01-15"), ("Total Less Break", JVal.jnum 5)]])
      = ["2024-W03"] ∧
    ("2024-W03" : String) ∉ (["2024-W02"] : List String) :=
  ⟨by rfl, by rfl, by decide⟩

/-! ## Claim C4 -/

/-- C4 (amended): the store-by-week series is **dense**, not sparse: in
both variants it holds exactly one entry for every pair in
weeks × stores — `weeks.length * stores.length` points in total — and
the entry for a pair with no recorded sales carries `cases = 0` rather
than being omitted. -/
theorem c4_store_week_series_dense (byStore : Obj (Obj ℚ)) (weeks stores : List String) :
    (allStoreDataOf byStore weeks stores).length = weeks.length * stores.length ∧
    (∀ e, e ∈ allStoreDataOf byStore weeks stores ↔
      (e.week ∈ weeks ∧ e.store ∈ stores ∧
        e.cases = ((objGet byStore e.store).bind (fun inner => objGet inner e.week)).getD 0)) ∧
    (∀ (byStore2 : Obj (Obj (Option ℚ))) (e : StoreWeekPoint),
      e ∈ allStoreDataV2 byStore2 weeks stores ↔
      (e.week ∈ weeks ∧ e.store ∈ stores ∧
        e.cases = jsOrZero ((objGet byStore2 e.store).bind (fun inner => objGet inner e.week)))) := by
  refine ⟨?_, ?_, ?_⟩
  · induction weeks with
    | nil => simp [allStoreDataOf]
    | cons w t ih =>
      simp only [allStoreDataOf, List.flatMap_cons, List.length_append, List.length_map,
        List.length_cons] at ih ⊢
      rw [ih]
      ring
  · intro e
    simp only [allStoreDataOf, List.mem_flatMap, List.mem_map]
    constructor
    · rintro ⟨w, hw, st, hst, rfl⟩
      exact ⟨hw, hst, rfl⟩
    · rintro ⟨hw, hst, hc⟩
      refine ⟨e.week, hw, e.store, hst, ?_⟩
      cases e with
      | mk ew ec es => simp only at hc ⊢; rw [hc]
  · intro byStore2 e
    simp only [allStoreDataV2, List.mem_flatMap, List.mem_map]
    constructor
    · rintro ⟨w, hw, st, hst, rfl⟩
      exact ⟨hw, hst, rfl⟩
    · rintro ⟨hw, hst, hc⟩
      refine ⟨e.week, hw, e.store, hst, ?_⟩
      cases e with
      | mk ew ec es => simp only at hc ⊢; rw [hc]

/-- Witness for C4: the dense series contains the zero-cases point for
a (store, week) pair with no recorded sales. -/
theorem c4_store_week_series_dense_witness :
    StoreWeekPoint.mk "2024-W02" 0 "A" ∈
      allStoreDataOf [("A", [("2024-W01", (2 : ℚ))])] ["2024-W01", "2024-W02"] ["A"] :=
  ((c4_store_week_series_dense [("A", [("2024-W01", (2 : ℚ))])]
      ["2024-W01", "2024-W02"] ["A"]).2.1 (StoreWeekPoint.mk "2024-W02" 0 "A")).2
    ⟨by decide, by decide, by rfl⟩

/-- C4 counterexample: with store "A" active only in week 2024-W01 and
store "B" only in week 2024-W02, the published series has four entries
— including zero-cases entries such as ("2024-W02", 0, "A") — where
the claimed sparse series would have two. -/
theorem c4_counterexample :
    Option.map MetricsV1.allStoreData (calculateMetricsV1
        [[("Product Name", JVal.jstr "Widget"), ("Units Per Case", JVal.jnum 1)]]
        [[("Product", JVal.jstr "Widget"), ("Quantity", JVal.jnum 2),
          ("Customer", JVal.jstr "A"), ("Delivery Date", JVal.jstr "2024-01-01")],
         [("Product", JVal.jstr "Widget"), ("Quantity", JVal.jnum 1),
          ("Customer", JVal.jstr "B"), ("Delivery Date", JVal.jstr "2024-01-08")]]
        [] [])
      = some
        [StoreWeekPoint.mk "2024-W01" 2 "A", StoreWeekPoint.mk "2024-W01" 0 "B",
         StoreWeekPoint.mk "2024-W02" 0 "A", StoreWeekPoint.mk "2024-W02" 1 "B"] ∧
    (StoreWeekPoint.mk "2024-W02" 0 "A").cases = 0 :=
  ⟨by decide, by rfl⟩

/-! ## Claim C5 -/

theorem objGet_objSet_cases {a : Type} (m : Obj a) (k k' : String) (v : a) :
    objGet (objSet m k v) k' = if k' = k then some v else objGet m k' := by
  by_cases h : k' = k
  · rw [if_pos h, h]
    exact objGet_objSet_self m k v
  · rw [if_neg h]
    exact objGet_objSet_ne m k k' v h

theorem productStep_pos_inv (m : Obj Int) (p : RawRecord)
    (hm : ∀ k u, objGet m k = some u → 0 < u) :
    ∀ k u, objGet (productStep m p) k = some u → 0 < u := by
  intro k u
  cases hparse : jsParseInt (resolveUnitsPerCase p) with
  | none =>
    simp only [productStep, hparse]
    exact hm k u
  | some w =>
    simp only [productStep, hparse]
    by_cases hcond : (truthy (resolveProductName p) && decide (0 < w)) = true
    · rw [if_pos hcond, objGet_objSet_cases]
      by_cases hk : k = jkey (resolveProductName p)
      · rw [if_pos hk]
        intro he
        cases he
        simp only [Bool.and_eq_true, decide_eq_true_eq] at hcond
        exact hcond.2
      · rw [if_neg hk]
        exact hm k u
    · rw [if_neg hcond]
      exact hm k u

theorem foldl_productStep_pos_inv (l : List RawRecord) (m : Obj Int)
    (hm : ∀ k u, objGet m k = some u → 0 < u) :
    ∀ k u, objGet (l.foldl productStep m) k = some u → 0 < u := by
  induction l generalizing m with
  | nil => exact hm
  | cons q t ih => exact ih (productStep m q) (productStep_pos_inv m q hm)

theorem productStep_keeps (m : Obj Int) (q : RawRecord) (key : String) (u : Int)
    (h : objGet m key = some u) : ∃ u', objGet (productStep m q) key = some u' := by
  cases hparse : jsParseInt (resolveUnitsPerCase q) with
  | none =>
    simp only [productStep, hparse]
    exact ⟨u, h⟩
  | some w =>
    simp only [productStep, hparse]
    by_cases hcond : (truthy (resolveProductName q) && decide (0 < w)) = true
    · rw [if_pos hcond, objGet_objSet_cases]
      by_cases hk : key = jkey (resolveProductName q)
      · rw [if_pos hk]
        exact ⟨w, rfl⟩
      · rw [if_neg hk]
        exact ⟨u, h⟩
    · rw [if_neg hcond]
      exact ⟨u, h⟩

theorem foldl_productStep_keeps (l : List RawRecord) (m : Obj Int) (key : String) (u : Int)
    (h : objGet m key = some u) :
    ∃ u', objGet (l.foldl productStep m) key = some u' := by
  induction l generalizing m u with
  | nil => exact ⟨u, h⟩
  | cons q t ih =>
    obtain ⟨u', hu'⟩ := productStep_keeps m q key u h
    exact ih (productStep m q) u' hu'

theorem foldl_productStep_indexes (l : List RawRecord) (m : Obj Int) (p : RawRecord)
    (hp : p ∈ l) (hname : truthy (resolveProductName p) = true) (u : Int)
    (hparse : jsParseInt (resolveUnitsPerCase p) = some u) (hpos : 0 < u) :
    ∃ u', objGet (l.foldl productStep m) (jkey (resolveProductName p)) = some u' := by
  induction l generalizing m with
  | nil => cases hp
  | cons q t ih =>
    rcases List.mem_cons.1 hp with rfl | hmem
    · have hstep : objGet (productStep m p) (jkey (resolveProductName p)) = some u := by
        simp only [productStep, hparse]
        rw [if_pos (by simp only [Bool.and_eq_true, decide_eq_true_eq]; exact ⟨hname, hpos⟩)]
        exact objGet_objSet_self m _ u
      rw [List.foldl_cons]
      exact foldl_productStep_keeps t (productStep m p) _ u hstep
    · rw [List.foldl_cons]
      exact ih (productStep m q) hmem

theorem productStepV2_keeps (m : Obj JVal) (q : RawRecord) (key : String) (v : JVal)
    (h : objGet m key = some v) : ∃ v', objGet (productStepV2 m q) key = some v' := by
  unfold productStepV2
  by_cases hc : truthy (fld q "Product Name") = true
  · rw [if_pos hc, objGet_objSet_cases]
    by_cases hk : key = jkey (fld q "Product Name")
    · rw [if_pos hk]
      exact ⟨_, rfl⟩
    · rw [if_neg hk]
      exact ⟨v, h⟩
  · rw [if_neg hc]
    exact ⟨v, h⟩

theorem foldl_productStepV2_keeps (l : List RawRecord) (m : Obj JVal) (key : String) (v : JVal)
    (h : objGet m key = some v) :
    ∃ v', objGet (l.foldl productStepV2 m) key = some v' := by
  induction l generalizing m v with
  | nil => exact ⟨v, h⟩
  | cons q t ih =>
    obtain ⟨v', hv'⟩ := productStepV2_keeps m q key v h
    exact ih (productStepV2 m q) v' hv'

/-- C5 (amended): a catalog record is indexed iff its resolved name is
truthy and the resolved units-per-case value — which **defaults to the
string "1"** when every units alias is absent or falsy — parses to a
positive integer.  A record with an absent units field is therefore
included with unitsPerCase 1, not skipped; only a non-empty unparseable
or non-positive units value causes a skip.  Every indexed value is
positive, and in the earlier (v2) variant a truthy product name alone
suffices for inclusion, with no units validation at all. -/
theorem c5_product_index_characterization :
    (∀ (products : List RawRecord) (k : String) (u : Int),
      objGet (processProductData products) k = some u → 0 < u) ∧
    (∀ (products : List RawRecord) (p : RawRecord), p ∈ products →
      truthy (resolveProductName p) = true →
      ∀ u : Int, jsParseInt (resolveUnitsPerCase p) = some u → 0 < u →
      ∃ u', objGet (processProductData products) (jkey (resolveProductName p)) = some u' ∧
        0 < u') ∧
    (∀ (m : Obj Int) (p : RawRecord),
      truthy (resolveProductName p) = false ∨
        jsParseInt (resolveUnitsPerCase p) = none ∨
        (∃ u, jsParseInt (resolveUnitsPerCase p) = some u ∧ u ≤ 0) →
      productStep m p = m) ∧
    (∀ (products : List RawRecord) (p : RawRecord), p ∈ products →
      truthy (fld p "Product Name") = true →
      ∃ v, objGet (processProductDataV2 products) (jkey (fld p "Product Name")) = some v) := by
  refine ⟨?_, ?_, ?_, ?_⟩
  · intro products k u
    exact foldl_productStep_pos_inv products [] (by intro k u h; cases h) k u
  · intro products p hp hname u hparse hpos
    obtain ⟨u', hu'⟩ := foldl_productStep_indexes products [] p hp hname u hparse hpos
    exact ⟨u', hu', foldl_productStep_pos_inv products [] (by intro k u h; cases h) _ u' hu'⟩
  · intro m p hskip
    rcases hskip with hname | hparse | ⟨u, hparse, hle⟩
    · cases hp2 : jsParseInt (resolveUnitsPerCase p) with
      | none => simp only [productStep, hp2]
      | some w =>
        simp only [productStep, hp2]
        rw [if_neg]
        simp only [Bool.and_eq_true, decide_eq_true_eq, not_and]
        intro ht
        rw [hname] at ht
        cases ht
    · simp only [productStep, hparse]
    · simp only [productStep, hparse]
      rw [if_neg]
      simp only [Bool.and_eq_true, decide_eq_true_eq, not_and]
      intro _ hlt
      omega
  · intro products p hp hname
    suffices h : ∀ (l : List RawRecord) (m : Obj JVal), p ∈ l →
        ∃ v, objGet (l.foldl productStepV2 m) (jkey (fld p "Product Name")) = some v by
      exact h products [] hp
    intro l
    induction l with
    | nil =>
      intro m hmem
      cases hmem
    | cons q t ih =>
      intro m hmem
      rcases List.mem_cons.1 hmem with rfl | hmem'
      · have hstep : objGet (productStepV2 m p) (jkey (fld p "Product Name"))
            = some (jsOr (fld p "Units Per Case") (JVal.jnum 1)) := by
          unfold productStepV2
          rw [if_pos hname]
          exact objGet_objSet_self m _ _
        exact foldl_productStepV2_keeps t (productStepV2 m p) _ _ hstep
      · exact ih (productStepV2 m q) hmem'

/-- Witness for C5: a record with a numeric units field is indexed with
its positive units value. -/
theorem c5_product_index_characterization_witness :
    ∃ u', objGet (processProductData
        [[("Product Name", JVal.jstr "Widget"), ("Units Per Case", JVal.jnum 12)]])
      (jkey (resolveProductName
        [("Product Name", JVal.jstr "Widget"), ("Units Per Case", JVal.jnum 12)]))
      = some u' ∧ 0 < u' :=
  c5_product_index_characterization.2.1
    [[("Product Name", JVal.jstr "Widget"), ("Units Per Case", JVal.jnum 12)]]
    [("Product Name", JVal.jstr "Widget"), ("Units Per Case", JVal.jnum 12)]
    (by decide) (by decide) 12 (by decide) (by decide)

/-- C5 counterexample: a record whose units-per-case field is entirely
absent is **indexed** with unitsPerCase 1 (the claim says it is
skipped); and in the v2 variant an unparseable units value is stored
as-is rather than the record being skipped. -/
theorem c5_counterexample :
    fld [("Product Name", JVal.jstr "Widget")] "Units Per Case" = JVal.jnull ∧
    fld [("Product Name", JVal.jstr "Widget")] "UnitsPerCase" = JVal.jnull ∧
    fld [("Product Name", JVal.jstr "Widget")] "Units" = JVal.jnull ∧
    processProductData [[("Product Name", JVal.jstr "Widget")]] = [("Widget", 1)] ∧
    processProductDataV2
        [[("Product Name", JVal.jstr "Widget"), ("Units Per Case", JVal.jstr "abc")]]
      = [("Widget", JVal.jstr "abc")] :=
  ⟨by rfl, by rfl, by rfl, by rfl, by rfl⟩

/-! ## Claim C6 -/

theorem salesStep_valid (pm : Obj Int) (acc : SalesAcc) (o : RawRecord) (q u : Int) (w : String)
    (hq : resolveSalesQuantity o = some q) (hqpos : 0 < q)
    (hprod : truthy (resolveSalesProduct o) = true)
    (hdate : truthy (resolveSalesDate o) = true)
    (hupc : objGet pm (jkey (resolveSalesProduct o)) = some u) (hupos : 0 < u)
    (hweek : getWeekNumberJ (resolveSalesDate o) = some w) :
    salesStep pm acc o =
      { salesByWeek := addTo acc.salesByWeek w ((q : ℚ) / (u : ℚ))
        salesByStoreAndWeek := objSet acc.salesByStoreAndWeek
          (jkey (resolveSalesCustomer o))
          (addTo ((objGet acc.salesByStoreAndWeek (jkey (resolveSalesCustomer o))).getD [])
            w ((q : ℚ) / (u : ℚ))) } := by
  simp only [salesStep, hq, hprod, hdate, hupc, hweek]
  rw [decide_eq_false (by omega : ¬ q = 0), decide_eq_false (by omega : ¬ q ≤ 0)]
  simp only [Bool.not_true, Bool.false_or, Bool.or_false, Bool.false_eq_true, if_false]
  rw [if_neg (by omega : ¬ u = 0)]

theorem poStep_valid (pm : Obj Int) (m : Obj ℚ) (o : RawRecord) (q u : Int) (w : String)
    (hq : resolvePOQuantity o = some q) (hqpos : 0 < q)
    (hprod : truthy (resolvePOProduct o) = true)
    (hdate : truthy (resolvePODate o) = true)
    (hupc : objGet pm (jkey (resolvePOProduct o)) = some u) (hupos : 0 < u)
    (hweek : getWeekNumberJ (resolvePODate o) = some w) :
    poStep pm m o = addTo m w ((q : ℚ) / (u : ℚ)) := by
  simp only [poStep, hq, hprod, hdate, hupc, hweek]
  rw [decide_eq_false (by omega : ¬ q = 0), decide_eq_false (by omega : ¬ q ≤ 0)]
  simp only [Bool.not_true, Bool.false_or, Bool.or_false, Bool.false_eq_true, if_false]
  rw [if_neg (by omega : ¬ u = 0)]

/-- C6: a sales or purchase record that passes validation contributes
exactly quantity / unitsPerCase to its week bucket — the exact
rational, added to the previous bucket value without rounding. -/
theorem c6_exact_case_conversion
    (pm : Obj Int) (acc : SalesAcc) (o : RawRecord) (q u : Int) (w : String)
    (hq : resolveSalesQuantity o = some q) (hqpos : 0 < q)
    (hprod : truthy (resolveSalesProduct o) = true)
    (hdate : truthy (resolveSalesDate o) = true)
    (hupc : objGet pm (jkey (resolveSalesProduct o)) = some u) (hupos : 0 < u)
    (hweek : getWeekNumberJ (resolveSalesDate o) = some w)
    (m2 : Obj ℚ) (o2 : RawRecord) (q2 u2 : Int) (w2 : String)
    (hq2 : resolvePOQuantity o2 = some q2) (hq2pos : 0 < q2)
    (hprod2 : truthy (resolvePOProduct o2) = true)
    (hdate2 : truthy (resolvePODate o2) = true)
    (hupc2 : objGet pm (jkey (resolvePOProduct o2)) = some u2) (hu2pos : 0 < u2)
    (hweek2 : getWeekNumberJ (resolvePODate o2) = some w2) :
    objGet (salesStep pm acc o).salesByWeek w
      = some ((objGet acc.salesByWeek w).getD 0 + (q : ℚ) / (u : ℚ)) ∧
    objGet (poStep pm m2 o2) w2
      = some ((objGet m2 w2).getD 0 + (q2 : ℚ) / (u2 : ℚ)) := by
  constructor
  · rw [salesStep_valid pm acc o q u w hq hqpos hprod hdate hupc hupos hweek]
    exact objGet_addTo_self acc.salesByWeek w _
  · rw [poStep_valid pm m2 o2 q2 u2 w2 hq2 hq2pos hprod2 hdate2 hupc2 hu2pos hweek2]
    exact objGet_addTo_self m2 w2 _

/-- Witness for C6 at the spec's example: quantity 36 at 12 units per
case contributes exactly 3 cases to week 2024-W02. -/
theorem c6_exact_case_conversion_witness :
    objGet (salesStep [("Widget", 12)] ⟨[], []⟩
        [("Product", JVal.jstr "Widget"), ("Quantity", JVal.jnum 36),
         ("Customer", JVal.jstr "Acme"), ("Delivery Date", JVal.jstr "2024-01-08")]).salesByWeek
      "2024-W02"
      = some ((objGet (SalesAcc.mk [] []).salesByWeek "2024-W02").getD 0 + (36 : ℚ) / (12 : ℚ)) ∧
    objGet (poStep [("Widget", 12)] []
        [("Product Name", JVal.jstr "Widget"), ("Purchase Quantity", JVal.jnum 36),
         ("Purchase Order Date", JVal.jstr "2024-01-08")])
      "2024-W02"
      = some ((objGet ([] : Obj ℚ) "2024-W02").getD 0 + (36 : ℚ) / (12 : ℚ)) ∧
    ((0 : ℚ) + (36 : ℚ) / (12 : ℚ)) = 3 :=
  ⟨(c6_exact_case_conversion [("Widget", 12)] ⟨[], []⟩
      [("Product", JVal.jstr "Widget"), ("Quantity", JVal.jnum 36),
       ("Customer", JVal.jstr "Acme"), ("Delivery Date", JVal.jstr "2024-01-08")]
      36 12 "2024-W02" (by rfl) (by decide) (by rfl) (by rfl) (by rfl) (by decide) (by rfl)
      [] [("Product Name", JVal.jstr "Widget"), ("Purchase Quantity", JVal.jnum 36),
          ("Purchase Order Date", JVal.jstr "2024-01-08")]
      36 12 "2024-W02" (by rfl) (by decide) (by rfl) (by rfl) (by rfl) (by decide) (by rfl)).1,
   (c6_exact_case_conversion [("Widget", 12)] ⟨[], []⟩
      [("Product", JVal.jstr "Widget"), ("Quantity", JVal.jnum 36),
       ("Customer", JVal.jstr "Acme"), ("Delivery Date", JVal.jstr "2024-01-08")]
      36 12 "2024-W02" (by rfl) (by decide) (by rfl) (by rfl) (by rfl) (by decide) (by rfl)
      [] [("Product Name", JVal.jstr "Widget"), ("Purchase Quantity", JVal.jnum 36),
          ("Purchase Order Date", JVal.jstr "2024-01-08")]
      36 12 "2024-W02" (by rfl) (by decide) (by rfl) (by rfl) (by rfl) (by decide) (by rfl)).2,
   by decide⟩

/-! ## Claim C7 -/

/-- C7 (amended): store rankings sum each store's per-week cases, sort
stores descending by total with ties kept in **first-occurrence
(insertion) order** — there is no store-name tie-break — take the
10-element prefix as the ranking, and retain the full sorted list (a
permutation of all stores) for the per-store-by-week series. -/
theorem c7_store_ranking (T : Obj ℚ) :
    (allStoresV1 T).Perm (objKeys T) ∧
    (allStoresV1 T).Pairwise (storeTotGe T) ∧
    (∀ t : ℚ, (allStoresV1 T).filter (fun s => decide ((objGet T s).getD 0 = t))
      = (objKeys T).filter (fun s => decide ((objGet T s).getD 0 = t))) ∧
    (∀ (products salesOrders purchaseOrders clocks : List RawRecord) (m : MetricsV1),
      calculateMetricsV1 products salesOrders purchaseOrders clocks = some m →
      m.topStoresByWeek.map StoreTotalEntry.store = m.allStores.take 10 ∧
      m.allStoreData = allStoreDataOf
        (processSalesData salesOrders (processProductData products)).salesByStoreAndWeek
        m.weeks m.allStores) := by
  refine ⟨jsSort_perm _ _, ?_, ?_, ?_⟩
  · have hpw := jsSort_pairwise (storeLt T) (objKeys T) ?_ ?_
    · refine List.Pairwise.imp ?_ hpw
      intro u v h
      simp only [storeLt, decide_eq_false_iff_not, not_lt] at h
      exact h
    · intro u _ v _ h
      simp only [storeLt, decide_eq_true_eq] at h
      simp only [storeLt, decide_eq_false_iff_not, not_lt]
      exact le_of_lt h
    · intro u _ v _ w _ h1 h2
      simp only [storeLt, decide_eq_false_iff_not, not_lt] at h1 h2 ⊢
      exact le_trans h2 h1
  · intro t
    refine jsSort_filter_tie (storeLt T) _ (objKeys T) ?_
    intro u _ v _ hu hv
    simp only [decide_eq_true_eq] at hu hv
    simp only [storeLt, decide_eq_false_iff_not, not_lt, hu, hv]
    exact le_refl t
  · intro P S PO C m h
    unfold calculateMetricsV1 at h
    by_cases h1 : (processProductData P).isEmpty = true
    · rw [if_pos h1] at h
      cases h
    · rw [if_neg h1] at h
      by_cases h2 : (allWeeksV1 (processSalesData S (processProductData P)).salesByWeek
          (processPurchaseData PO (processProductData P)) (processClockData C)).isEmpty = true
      · rw [if_pos h2] at h
        cases h
      · rw [if_neg h2] at h
        cases Option.some.inj h
        constructor
        · rw [List.map_map]
          have hcomp : (StoreTotalEntry.store ∘ fun s => StoreTotalEntry.mk s
              ((objGet (storeTotalOf (processSalesData S
                (processProductData P)).salesByStoreAndWeek) s).getD 0)) = id := rfl
          rw [hcomp, List.map_id]
        · rfl

/-- Witness for C7: a run with no sales yields an empty ranking, the
prefix of the (empty) full store list. -/
theorem c7_store_ranking_witness :
    (MetricsV1.mk
        [WeekEntry.mk "2024-W02" 5 0 0 0]
        [WeeklyRow.mk "2024-W02" 5 0 0 0]
        [] [] [] ["2024-W02"]).topStoresByWeek.map StoreTotalEntry.store
      = (MetricsV1.mk
        [WeekEntry.mk "2024-W02" 5 0 0 0]
        [WeeklyRow.mk "2024-W02" 5 0 0 0]
        [] [] [] ["2024-W02"]).allStores.take 10 ∧
    (MetricsV1.mk
        [WeekEntry.mk "2024-W02" 5 0 0 0]
        [WeeklyRow.mk "2024-W02" 5 0 0 0]
        [] [] [] ["2024-W02"]).allStoreData
      = allStoreDataOf (processSalesData []
          (processProductData
            [[("Product Name", JVal.jstr "Widget"), ("Units Per Case", JVal.jnum 2)]])).salesByStoreAndWeek
        (MetricsV1.mk
          [WeekEntry.mk "2024-W02" 5 0 0 0]
          [WeeklyRow.mk "2024-W02" 5 0 0 0]
          [] [] [] ["2024-W02"]).weeks
        (MetricsV1.mk
          [WeekEntry.mk "2024-W02" 5 0 0 0]
          [WeeklyRow.mk "2024-W02" 5 0 0 0]
          [] [] [] ["2024-W02"]).allStores :=
  (c7_store_ranking []).2.2.2
    [[("Product Name", JVal.jstr "Widget"), ("Units Per Case", JVal.jnum 2)]]
    []
    [[("Product Name", JVal.jstr "Widget"), ("Purchase Quantity", JVal.jnum 10),
      ("Purchase Order Date", JVal.jstr "2024-01-08")]]
    []
    (MetricsV1.mk
      [WeekEntry.mk "2024-W02" 5 0 0 0]
      [WeeklyRow.mk "2024-W02" 5 0 0 0]
      [] [] [] ["2024-W02"])
    (by decide)

/-- C7 counterexample: two stores tied on total keep their insertion
order ("Zeta" before "Alpha"), not the claimed ascending-name order
(["Alpha", "Zeta"]). -/
theorem c7_counterexample :
    Option.map MetricsV1.topStoresByWeek (calculateMetricsV1
        [[("Product Name", JVal.jstr "Widget"), ("Units Per Case", JVal.jnum 12)]]
        [[("Product", JVal.jstr "Widget"), ("Quantity", JVal.jnum 12),
          ("Customer", JVal.jstr "Zeta"), ("Delivery Date", JVal.jstr "2024-01-08")],
         [("Product", JVal.jstr "Widget"), ("Quantity", JVal.jnum 12),
          ("Customer", JVal.jstr "Alpha"), ("Delivery Date", JVal.jstr "2024-01-08")]]
        [] [])
      = some [StoreTotalEntry.mk "Zeta" 1, StoreTotalEntry.mk "Alpha" 1] ∧
    Option.map MetricsV1.allStores (calculateMetricsV1
        [[("Product Name", JVal.jstr "Widget"), ("Units Per Case", JVal.jnum 12)]]
        [[("Product", JVal.jstr "Widget"), ("Quantity", JVal.jnum 12),
          ("Customer", JVal.jstr "Zeta"), ("Delivery Date", JVal.jstr "2024-01-08")],
         [("Product", JVal.jstr "Widget"), ("Quantity", JVal.jnum 12),
          ("Customer", JVal.jstr "Alpha"), ("Delivery Date", JVal.jstr "2024-01-08")]]
        [] [])
      = some ["Zeta", "Alpha"] ∧
    (["Zeta", "Alpha"] : List String) ≠ ["Alpha", "Zeta"] :=
  ⟨by decide, by decide, by decide⟩

/-! ## Claim C8 -/

/-- C8: the reworked normalizer signals failure as `null` and its
callers skip the record (the claim's behavior, shown in the first two
conjuncts) — but in the earlier variant the `"Unknown"` sentinel is
unreachable for string inputs: an unparseable date string instead
produces the literal week key "NaN-WNaN", which passes the
`week === "Unknown"` guard, is accumulated as a real bucket, and flows
into the weekly series. -/
theorem c8_unparseable_date_creates_nan_bucket :
    getWeekNumber "banana" = none ∧
    salesStep (processProductData
        [[("Product Name", JVal.jstr "Widget"), ("Units Per Case", JVal.jnum 10)]])
      (SalesAcc.mk [] [])
      [("Product", JVal.jstr "Widget"), ("Quantity", JVal.jnum 20),
       ("Customer", JVal.jstr "Acme"), ("Delivery Date", JVal.jstr "banana")]
      = SalesAcc.mk [] [] ∧
    getWeekNumberV2 "banana" = "NaN-WNaN" ∧
    ("NaN-WNaN" : String) ≠ "Unknown" ∧
    metricsWeeksV2
        [[("Product Name", JVal.jstr "Widget"), ("Units Per Case", JVal.jnum 10)]]
        [[("Product", JVal.jstr "Widget"), ("Quantity", JVal.jnum 20),
          ("Customer", JVal.jstr "Acme"), ("Delivery Date", JVal.jstr "banana")]]
        [] []
      = ["NaN-WNaN"] ∧
    metricsWeeklyV2
        [[("Product Name", JVal.jstr "Widget"), ("Units Per Case", JVal.jnum 10)]]
        [[("Product", JVal.jstr "Widget"), ("Quantity", JVal.jnum 20),
          ("Customer", JVal.jstr "Acme"), ("Delivery Date", JVal.jstr "banana")]]
        [] []
      = [WeekEntry.mk "NaN-WNaN" 0 2 0 0] :=
  ⟨by rfl, by rfl, by rfl, by decide, by rfl, by decide⟩

/-! ## Claim C9 -/

/-- C9: every composed weekly entry carries the guarded efficiency
ratio: (receivedCases + shippedCases) / laborHours when laborHours is
positive, and exactly 0 when laborHours is 0 — the division is never
taken with a zero divisor. -/
theorem c9_efficiency_guarded (P S PO C : List RawRecord) (m : MetricsV1) (e : WeekEntry)
    (h : calculateMetricsV1 P S PO C = some m) (he : e ∈ m.casesPerLaborHour) :
    (0 < e.laborHours → e.totalCasesPerLaborHour
        = (e.receivedCases + e.shippedCases) / e.laborHours) ∧
    (e.laborHours = 0 → e.totalCasesPerLaborHour = 0) := by
  unfold calculateMetricsV1 at h
  by_cases h1 : (processProductData P).isEmpty = true
  · rw [if_pos h1] at h
    cases h
  · rw [if_neg h1] at h
    by_cases h2 : (allWeeksV1 (processSalesData S (processProductData P)).salesByWeek
        (processPurchaseData PO (processProductData P)) (processClockData C)).isEmpty = true
    · rw [if_pos h2] at h
      cases h
    · rw [if_neg h2] at h
      cases Option.some.inj h
      simp only [casesPerLaborHourV1] at he
      rcases List.mem_map.1 he with ⟨week, hwk, rfl⟩
      constructor
      · intro hl
        simp only [weekEntryOf] at hl ⊢
        rw [if_pos hl]
      · intro hl
        simp only [weekEntryOf] at hl ⊢
        rw [hl, if_neg (lt_irrefl 0)]

/-- Witness for C9: a week with laborHours = 0 and receivedCases = 5
has efficiency 0, not an error and not infinity. -/
theorem c9_efficiency_guarded_witness :
    (0 < (WeekEntry.mk "2024-W02" 5 0 0 0).laborHours →
      (WeekEntry.mk "2024-W02" 5 0 0 0).totalCasesPerLaborHour
        = ((WeekEntry.mk "2024-W02" 5 0 0 0).receivedCases
            + (WeekEntry.mk "2024-W02" 5 0 0 0).shippedCases)
          / (WeekEntry.mk "2024-W02" 5 0 0 0).laborHours) ∧
    ((WeekEntry.mk "2024-W02" 5 0 0 0).laborHours = 0 →
      (WeekEntry.mk "2024-W02" 5 0 0 0).totalCasesPerLaborHour = 0) :=
  c9_efficiency_guarded
    [[("Product Name", JVal.jstr "Widget"), ("Units Per Case", JVal.jnum 2)]]
    []
    [[("Product Name", JVal.jstr "Widget"), ("Purchase Quantity", JVal.jnum 10),
      ("Purchase Order Date", JVal.jstr "2024-01-08")]]
    []
    (MetricsV1.mk
      [WeekEntry.mk "2024-W02" 5 0 0 0]
      [WeeklyRow.mk "2024-W02" 5 0 0 0]
      [] [] [] ["2024-W02"])
    (WeekEntry.mk "2024-W02" 5 0 0 0)
    (by decide) (by decide)

/-! ## Claim C10 -/

/-- C10: a sales record that passes validation but has no truthy
store-name alias (Customer, Store, Client) is not skipped: its cases
are accumulated under the literal store name "Unknown", so "Unknown"
appears among the store keys and hence in the sorted store list the
rankings are cut from. -/
theorem c10_unknown_store_bucket (pm : Obj Int) (acc : SalesAcc) (o : RawRecord)
    (q u : Int) (w : String)
    (hq : resolveSalesQuantity o = some q) (hqpos : 0 < q)
    (hprod : truthy (resolveSalesProduct o) = true)
    (hdate : truthy (resolveSalesDate o) = true)
    (hupc : objGet pm (jkey (resolveSalesProduct o)) = some u) (hupos : 0 < u)
    (hweek : getWeekNumberJ (resolveSalesDate o) = some w)
    (hcust : truthy (fld o "Customer") = false)
    (hstore : truthy (fld o "Store") = false)
    (hclient : truthy (fld o "Client") = false) :
    resolveSalesCustomer o = JVal.jstr "Unknown" ∧
    objGet (salesStep pm acc o).salesByStoreAndWeek "Unknown"
      = some (addTo ((objGet acc.salesByStoreAndWeek "Unknown").getD []) w ((q : ℚ) / (u : ℚ))) ∧
    "Unknown" ∈ objKeys ((salesStep pm acc o).salesByStoreAndWeek) ∧
    (∀ T : Obj ℚ, "Unknown" ∈ objKeys T → "Unknown" ∈ allStoresV1 T) := by
  have hcu : resolveSalesCustomer o = JVal.jstr "Unknown" := by
    simp only [resolveSalesCustomer, jsOr, hcust, hstore, hclient, Bool.false_eq_true, if_false]
  have hv := salesStep_valid pm acc o q u w hq hqpos hprod hdate hupc hupos hweek
  refine ⟨hcu, ?_, ?_, ?_⟩
  · rw [hv]
    simp only [hcu]
    exact objGet_objSet_self acc.salesByStoreAndWeek "Unknown" _
  · rw [hv]
    simp only [hcu]
    exact (mem_objKeys_objSet acc.salesByStoreAndWeek "Unknown" "Unknown" _).2 (Or.inl rfl)
  · intro T hT
    exact (jsSort_perm (storeLt T) (objKeys T)).mem_iff.2 hT

/-- Witness for C10: a record with no store alias lands in the
"Unknown" bucket. -/
theorem c10_unknown_store_bucket_witness :
    objGet (salesStep [("Widget", 12)] (SalesAcc.mk [] [])
        [("Product", JVal.jstr "Widget"), ("Quantity", JVal.jnum 12),
         ("Delivery Date", JVal.jstr "2024-01-08")]).salesByStoreAndWeek "Unknown"
      = some (addTo ((objGet (SalesAcc.mk [] []).salesByStoreAndWeek "Unknown").getD [])
          "2024-W02" ((12 : ℚ) / (12 : ℚ))) :=
  (c10_unknown_store_bucket [("Widget", 12)] (SalesAcc.mk [] [])
    [("Product", JVal.jstr "Widget"), ("Quantity", JVal.jnum 12),
     ("Delivery Date", JVal.jstr "2024-01-08")]
    12 12 "2024-W02"
    (by rfl) (by decide) (by rfl) (by rfl) (by rfl) (by decide) (by rfl)
    (by rfl) (by rfl) (by rfl)).2.1
